import Mathlib

/-
  Verification of the cache/storage engine and URL-identifier parser of the
  youtube-transcript-api service.

  Embedded source files:
    src/src/youtube_api/services/cache.py     (RedisCache, cached decorator)
    src/src/youtube_api/services/storage.py   (TranscriptStorage)
    src/src/youtube_api/utils/url_parser.py   (get_youtube_video_id)

  The external key-value backend (a Redis client) is modelled from the spec,
  section 6: GET key, SETEX key ttl value, DEL key..., KEYS pattern used as a
  literal-prefix scan, with values expiring once the clock passes their expiry.
-/

/-- A JSON-serializable Python value, as stored by the cache layer
(`json.dumps` / `json.loads` round-trip on exactly these values).
`PyVal.none` doubles as Python `None`. -/
inductive PyVal where
  | none : PyVal
  | bool : Bool → PyVal
  | int : Int → PyVal
  | str : String → PyVal
  | list : List PyVal → PyVal
  | dict : List (String × PyVal) → PyVal

/-- Python `x is None` test used by the cached decorator. -/
def PyVal.isNone : PyVal → Bool
  | PyVal.none => true
  | _ => false

/-- A value held by the key-value backend. The backend stores text;
transcript keys hold the transcript verbatim (`RStr.raw`), while cache and
metadata keys hold `json.dumps` output (`RStr.json`, which is never the
empty string and hence always truthy). -/
inductive RStr where
  | raw : String → RStr
  | json : PyVal → RStr

/-- Python truthiness of the stored text: a raw string is truthy iff
non-empty; serialized JSON text is always non-empty. -/
def RStr.truthy : RStr → Bool
  | RStr.raw s => !s.isEmpty
  | RStr.json _ => true

/-- One key of the backend: its name, stored text, and absolute expiry time
(every write in this codebase is a SETEX). -/
structure REntry where
  key : String
  val : RStr
  expiresAt : Nat

/-- State of the external key-value backend plus its clock and the two
counters reported by `INFO stats`. -/
structure Redis where
  store : List REntry
  now : Nat
  keyspace_hits : Nat
  keyspace_misses : Nat

/-- First entry stored under a key name. -/
def rlookup : List REntry → String → Option REntry
  | [], _ => Option.none
  | e :: es, k => if e.key = k then Option.some e else rlookup es k

/-- Backend GET: the stored text, provided the key has not expired. -/
def Redis.getVal (r : Redis) (k : String) : Option RStr :=
  match rlookup r.store k with
  | Option.some e => if r.now < e.expiresAt then Option.some e.val else Option.none
  | Option.none => Option.none

/-- Backend SETEX: store a value under a key with a time-to-live. -/
def Redis.setex (r : Redis) (k : String) (ttl : Nat) (v : RStr) : Redis :=
  { r with store := ⟨k, v, r.now + ttl⟩ :: r.store.filter (fun e => decide (e.key ≠ k)) }

/-- Backend DEL of a list of key names. -/
def Redis.del (r : Redis) (ks : List String) : Redis :=
  { r with store := r.store.filter (fun e => decide (e.key ∉ ks)) }

/-- Is `p` a prefix of `s`? (character-by-character, structural). -/
def listIsPre : List Char → List Char → Bool
  | [], _ => true
  | _ :: _, [] => false
  | p :: ps, c :: cs => if p = c then listIsPre ps cs else false

/-- Is the string `p` a prefix of the string `s`? -/
def strIsPre (p s : String) : Bool := listIsPre p.data s.data

/-- Backend `KEYS pattern` where the pattern is a literal prefix followed by
`*` (the only shape of pattern this codebase uses): all live keys starting
with the prefix. Modelled from the spec: KEYS is a prefix-scan. -/
def Redis.keysWithPre (r : Redis) (p : String) : List String :=
  (r.store.filter (fun e => strIsPre p e.key && decide (r.now < e.expiresAt))).map REntry.key

/-- Advance the backend clock (time passing between requests). -/
def Redis.tick (r : Redis) (dt : Nat) : Redis := { r with now := r.now + dt }

/-
  MD5 (RFC 1321), as computed by Python's `hashlib.md5`, over byte lists,
  with 32-bit words represented as naturals reduced modulo 2^32.
-/

/-- 2^32, the 32-bit word modulus. -/
def w32 : Nat := 4294967296

/-- 32-bit addition. -/
def add32 (a b : Nat) : Nat := (a + b) % w32

/-- 32-bit bitwise complement. -/
def not32 (x : Nat) : Nat := Nat.xor x (w32 - 1)

/-- 32-bit left rotation (for 0 < s < 32 and x < 2^32). -/
def rotl32 (x s : Nat) : Nat := x * 2 ^ s % w32 + x / 2 ^ (32 - s)

/-- MD5 round function F. -/
def mdF (b c d : Nat) : Nat := Nat.lor (Nat.land b c) (Nat.land (not32 b) d)

/-- MD5 round function G. -/
def mdG (b c d : Nat) : Nat := Nat.lor (Nat.land b d) (Nat.land c (not32 d))

/-- MD5 round function H. -/
def mdH (b c d : Nat) : Nat := Nat.xor b (Nat.xor c d)

/-- MD5 round function I. -/
def mdI (b c d : Nat) : Nat := Nat.xor c (Nat.lor b (not32 d))

/-- MD5 sine-derived constants T[1..64]. -/
def md5K : List Nat :=
  [0xd76aa478, 0xe8c7b756, 0x242070db, 0xc1bdceee,
   0xf57c0faf, 0x4787c62a, 0xa8304613, 0xfd469501,
   0x698098d8, 0x8b44f7af, 0xffff5bb1, 0x895cd7be,
   0x6b901122, 0xfd987193, 0xa679438e, 0x49b40821,
   0xf61e2562, 0xc040b340, 0x265e5a51, 0xe9b6c7aa,
   0xd62f105d, 0x02441453, 0xd8a1e681, 0xe7d3fbc8,
   0x21e1cde6, 0xc33707d6, 0xf4d50d87, 0x455a14ed,
   0xa9e3e905, 0xfcefa3f8, 0x676f02d9, 0x8d2a4c8a,
   0xfffa3942, 0x8771f681, 0x6d9d6122, 0xfde5380c,
   0xa4beea44, 0x4bdecfa9, 0xf6bb4b60, 0xbebfbc70,
   0x289b7ec6, 0xeaa127fa, 0xd4ef3085, 0x04881d05,
   0xd9d4d039, 0xe6db99e5, 0x1fa27cf8, 0xc4ac5665,
   0xf4292244, 0x432aff97, 0xab9423a7, 0xfc93a039,
   0x655b59c3, 0x8f0ccc92, 0xffeff47d, 0x85845dd1,
   0x6fa87e4f, 0xfe2ce6e0, 0xa3014314, 0x4e0811a1,
   0xf7537e82, 0xbd3af235, 0x2ad7d2bb, 0xeb86d391]

/-- MD5 per-step left-rotation amounts. -/
def md5S : List Nat :=
  [7, 12, 17, 22, 7, 12, 17, 22, 7, 12, 17, 22, 7, 12, 17, 22,
   5, 9, 14, 20, 5, 9, 14, 20, 5, 9, 14, 20, 5, 9, 14, 20,
   4, 11, 16, 23, 4, 11, 16, 23, 4, 11, 16, 23, 4, 11, 16, 23,
   6, 10, 15, 21, 6, 10, 15, 21, 6, 10, 15, 21, 6, 10, 15, 21]

/-- One of the 64 MD5 steps on the (a, b, c, d) state, over a 16-word
message block `M`. -/
def md5Step (M : List Nat) (st : Nat × Nat × Nat × Nat) (i : Nat) : Nat × Nat × Nat × Nat :=
  let a := st.1
  let b := st.2.1
  let c := st.2.2.1
  let d := st.2.2.2
  let f :=
    if i < 16 then mdF b c d
    else if i < 32 then mdG b c d
    else if i < 48 then mdH b c d
    else mdI b c d
  let g :=
    if i < 16 then i
    else if i < 32 then (5 * i + 1) % 16
    else if i < 48 then (3 * i + 5) % 16
    else 7 * i % 16
  let tmp := add32 a (add32 f (add32 (md5K.getD i 0) (M.getD g 0)))
  (d, add32 b (rotl32 tmp (md5S.getD i 0)), b, c)

/-- Process one 16-word block. -/
def md5Block (st : Nat × Nat × Nat × Nat) (M : List Nat) : Nat × Nat × Nat × Nat :=
  let r := (List.range 64).foldl (md5Step M) st
  (add32 st.1 r.1, add32 st.2.1 r.2.1, add32 st.2.2.1 r.2.2.1, add32 st.2.2.2 r.2.2.2)

/-- Little-endian byte decomposition of a 32-bit word. -/
def leBytes4 (x : Nat) : List Nat := [x % 256, x / 256 % 256, x / 65536 % 256, x / 16777216 % 256]

/-- Little-endian byte decomposition of a 64-bit length field. -/
def leBytes8 (x : Nat) : List Nat := leBytes4 (x % w32) ++ leBytes4 (x / w32)

/-- MD5 padding: a 0x80 byte, zeros up to 56 mod 64, then the bit length
as a little-endian 64-bit field. -/
def md5Pad (msg : List Nat) : List Nat :=
  msg ++ [128] ++ List.replicate ((120 - (msg.length + 1) % 64) % 64) 0 ++
    leBytes8 (msg.length * 8 % 2 ^ 64)

/-- Group bytes into little-endian 32-bit words (input length a multiple of 4). -/
def toWords : List Nat → List Nat
  | b0 :: b1 :: b2 :: b3 :: rest => (b0 + 256 * b1 + 65536 * b2 + 16777216 * b3) :: toWords rest
  | _ => []

/-- Split a word list into 16-word blocks (fuel-driven so it reduces). -/
def chunks16 : Nat → List Nat → List (List Nat)
  | _, [] => []
  | 0, _ => []
  | fuel + 1, l => l.take 16 :: chunks16 fuel (l.drop 16)

/-- MD5 initial state. -/
def md5Init : Nat × Nat × Nat × Nat := (0x67452301, 0xefcdab89, 0x98badcfe, 0x10325476)

/-- Serialize the final state as 16 digest bytes. -/
def md5Final (st : Nat × Nat × Nat × Nat) : List Nat :=
  leBytes4 st.1 ++ leBytes4 st.2.1 ++ leBytes4 st.2.2.1 ++ leBytes4 st.2.2.2

/-- The 16-byte MD5 digest of a byte list. -/
def md5Digest (msg : List Nat) : List Nat :=
  let ws := toWords (md5Pad msg)
  md5Final ((chunks16 ws.length ws).foldl md5Block md5Init)

/-- Lowercase hexadecimal digit. -/
def hexDigit (n : Nat) : Char := Char.ofNat (if n < 10 then 48 + n else 87 + n)

/-- Two lowercase hex characters of a byte. -/
def hexByte (b : Nat) : List Char := [hexDigit (b / 16), hexDigit (b % 16)]

/-- `hashlib.md5(...).hexdigest()`: the 32-character lowercase hex digest. -/
def md5hex (msg : List Nat) : String :=
  String.mk ((md5Digest msg).foldr (fun b acc => hexByte b ++ acc) [])

/-- UTF-8 encoding of one character (Python `str.encode()` is UTF-8). -/
def utf8Bytes (c : Char) : List Nat :=
  let n := c.toNat
  if n < 128 then [n]
  else if n < 2048 then [192 + n / 64, 128 + n % 64]
  else if n < 65536 then [224 + n / 4096, 128 + n / 64 % 64, 128 + n % 64]
  else [240 + n / 262144, 128 + n / 4096 % 64, 128 + n / 64 % 64, 128 + n % 64]

/-- UTF-8 bytes of a string. -/
def strBytes (s : String) : List Nat := s.data.foldr (fun c acc => utf8Bytes c ++ acc) []

/-
  services/cache.py — RedisCache and the cached decorator.
-/

/-- The cache layer's handle. The live client connection is represented by
passing the backend state `Redis` to each operation; `enabled` is false when
no URL was configured or the initial connection failed (cache.py lines
20-54). -/
structure RedisCache where
  redis_url : Option String
  cache_ttl : Nat
  enabled : Bool

/-- `RedisCache.__init__` with the settings already resolved: `enabled =
bool(redis_url)`, demoted to false if the connection test fails
(`connect_ok` models the `ping` in the try block). -/
def RedisCache.init (redis_url : Option String) (cache_ttl : Nat) (connect_ok : Bool) : RedisCache :=
  let en :=
    match redis_url with
    | Option.some u => !u.isEmpty
    | Option.none => false
  { redis_url := redis_url, cache_ttl := cache_ttl, enabled := en && connect_ok }

/-- Python tuple comparison used by `sorted(kwargs.items())`: lexicographic
on the (key, value) pair. -/
def pairLeRel (a b : String × String) : Prop :=
  a.1 < b.1 ∨ (a.1 = b.1 ∧ a.2 ≤ b.2)

instance : DecidableRel pairLeRel := fun a b =>
  inferInstanceAs (Decidable (a.1 < b.1 ∨ (a.1 = b.1 ∧ a.2 ≤ b.2)))

/-- `RedisCache._generate_key` (cache.py lines 56-62): positional arguments
in order, then keyword items sorted by key (Python's `sorted` — a sort under
the tuple order; insertion sort here), joined with `:`, hashed with MD5,
under the fixed namespace and the caller's operation prefix. Positional and
keyword values appear already converted by `str()`. -/
def RedisCache._generate_key (_c : RedisCache) (pre : String) (args : List String)
    (kwargs : List (String × String)) : String :=
  let key_parts := args ++ (kwargs.insertionSort pairLeRel).map (fun kv => kv.1 ++ "=" ++ kv.2)
  let key_string := String.intercalate ":" key_parts
  let key_hash := md5hex (strBytes key_string)
  "youtube_api:" ++ pre ++ ":" ++ key_hash

/-- `RedisCache.get` (cache.py lines 64-78). Returns `PyVal.none` for a
miss, exactly as the Python function returns `None`. A truthy stored text is
decoded with `json.loads`; cache keys are written only by `RedisCache.set`,
so their text is serialized JSON (a raw text that is not valid JSON would
make `json.loads` raise, which the handler converts to `None`). -/
def RedisCache.get (c : RedisCache) (r : Redis) (key : String) : PyVal :=
  if c.enabled then
    match r.getVal key with
    | Option.some v =>
      if v.truthy then
        match v with
        | RStr.json x => x
        | RStr.raw _ => PyVal.none
      else PyVal.none
    | Option.none => PyVal.none
  else PyVal.none

/-- `ttl = ttl or self.cache_ttl` (cache.py line 86): `None` and `0` both
fall back to the configured default. -/
def effectiveTtl (c : RedisCache) (ttl : Option Nat) : Nat :=
  match ttl with
  | Option.some n => if n = 0 then c.cache_ttl else n
  | Option.none => c.cache_ttl

/-- `RedisCache.set` (cache.py lines 80-93): serialize and SETEX. -/
def RedisCache.set (c : RedisCache) (r : Redis) (key : String) (value : PyVal)
    (ttl : Option Nat) : Bool × Redis :=
  if c.enabled then (true, r.setex key (effectiveTtl c ttl) (RStr.json value))
  else (false, r)

/-- `RedisCache.delete` (cache.py lines 95-106). -/
def RedisCache.delete (c : RedisCache) (r : Redis) (key : String) : Bool × Redis :=
  if c.enabled then (true, r.del [key]) else (false, r)

/-- `RedisCache.clear_all` (cache.py lines 108-122): scan `youtube_api:*`
and bulk-delete; returns a success flag. -/
def RedisCache.clear_all (c : RedisCache) (r : Redis) : Bool × Redis :=
  if c.enabled then
    let keys := r.keysWithPre "youtube_api:"
    (true, if keys.isEmpty then r else r.del keys)
  else (false, r)

/-- `RedisCache.get_stats` (cache.py lines 124-143). -/
def RedisCache.get_stats (c : RedisCache) (r : Redis) : PyVal :=
  if c.enabled then
    PyVal.dict
      [("enabled", PyVal.bool true), ("status", PyVal.str "connected"),
       ("total_keys", PyVal.int (r.keysWithPre "youtube_api:").length),
       ("ttl_seconds", PyVal.int c.cache_ttl),
       ("keyspace_hits", PyVal.int r.keyspace_hits),
       ("keyspace_misses", PyVal.int r.keyspace_misses)]
  else PyVal.dict [("enabled", PyVal.bool false), ("status", PyVal.str "disabled")]

/-- One call of the function produced by the `cached` decorator (cache.py
lines 172-201; `sync_wrapper` and `async_wrapper` share this body, the
latter merely awaiting the producer). The producer `f` returns
`Except.error` when the underlying Python call raises; `calls` counts its
invocations. Arguments appear as the strings `_generate_key` formats. -/
def cachedCall (pre : String) (ttl : Option Nat)
    (f : List String → List (String × String) → Except String PyVal)
    (c : RedisCache) (args : List String) (kwargs : List (String × String))
    (r : Redis) (calls : Nat) : Except String PyVal × Redis × Nat :=
  let cache_key := c._generate_key pre args kwargs
  let cached_value := c.get r cache_key
  if cached_value.isNone then
    match f args kwargs with
    | Except.error e => (Except.error e, r, calls + 1)
    | Except.ok result => (Except.ok result, (c.set r cache_key result ttl).2, calls + 1)
  else (Except.ok cached_value, r, calls)

/-
  utils/url_parser.py — get_youtube_video_id, together with the parts of
  urllib.parse (urlparse, hostname, parse_qs) that it relies on, modelled
  over character lists so that everything reduces structurally.
-/

/-- ASCII restriction of Python `str.isalnum` (video identifiers and URL
characters are ASCII). -/
def pyIsAlnum (c : Char) : Bool := c.isAlphanum

/-- One character of the video-id alphabet: `c.isalnum() or c in "-_"`. -/
def pyAllowedIdChar (c : Char) : Bool := pyIsAlnum c || c == '-' || c == '_'

/-- The direct-ID test of url_parser.py line 35: exactly 11 characters,
each alphanumeric or `-`/`_`. -/
def isDirectVideoId (s : String) : Bool := s.length == 11 && s.data.all pyAllowedIdChar

/-- Split at the first occurrence of (non-empty) `sep`: the part before and
the part after, or nothing when `sep` does not occur. -/
def splitFirstL (sep : List Char) : List Char → Option (List Char × List Char)
  | [] => Option.none
  | c :: cs =>
    if listIsPre sep (c :: cs) then Option.some ([], (c :: cs).drop sep.length)
    else
      match splitFirstL sep cs with
      | Option.some (a, b) => Option.some (c :: a, b)
      | Option.none => Option.none

/-- `split(sep)` on character lists (fuel-driven so it reduces). -/
def splitAllAux (sep : List Char) : Nat → List Char → List (List Char)
  | 0, l => [l]
  | fuel + 1, l =>
    match splitFirstL sep l with
    | Option.some (a, b) => a :: splitAllAux sep fuel b
    | Option.none => [l]

/-- Python `s.split(sep)` for a non-empty separator. -/
def splitAllL (sep l : List Char) : List (List Char) := splitAllAux sep (l.length + 1) l

/-- `split(sep)[0]`: the part before the first occurrence of `sep`. -/
def splitHeadL (sep : List Char) (l : List Char) : List Char :=
  match splitFirstL sep l with
  | Option.some (a, _) => a
  | Option.none => l

/-- Python substring test `needle in hay`. -/
def containsL (needle : List Char) : List Char → Bool
  | [] => listIsPre needle []
  | c :: cs => listIsPre needle (c :: cs) || containsL needle cs

/-- Python `needle in hay` on strings. -/
def pyInStr (needle hay : String) : Bool := containsL needle.data hay.data

/-- Take characters until one of the stop characters. -/
def takeUntilAny (stops : List Char) : List Char → List Char
  | [] => []
  | c :: cs => if c ∈ stops then [] else c :: takeUntilAny stops cs

/-- The components `urlparse` yields that url_parser.py consults. -/
structure UrlParts where
  scheme : String
  netloc : String
  path : String
  query : String
  fragment : String

/-- A character allowed inside a URL scheme. -/
def schemeChar (c : Char) : Bool := pyIsAlnum c || c == '+' || c == '-' || c == '.'

/-- `urllib.parse.urlparse`, to the extent url_parser.py uses it: scheme
split at the first `:` when the text before it is a valid scheme, netloc
after `//` up to `/`, `?` or `#`, then fragment and query split off. (The
C0-control/whitespace sanitization and IPv6 bracket validation of CPython
are omitted; no input considered here contains those characters.) -/
def pyUrlparse (url : String) : UrlParts :=
  let u0 := url.data
  let su :=
    match splitFirstL [':'] u0 with
    | Option.some (before, rest) =>
      match before with
      | [] => ([], u0)
      | c :: cs =>
        if c.isAlpha && (c :: cs).all schemeChar then ((c :: cs).map Char.toLower, rest)
        else ([], u0)
    | Option.none => ([], u0)
  let u1 := su.2
  let nu :=
    if listIsPre ['/', '/'] u1 then
      let body := u1.drop 2
      let nl := takeUntilAny ['/', '?', '#'] body
      (nl, body.drop nl.length)
    else ([], u1)
  let u2 := nu.2
  let uf :=
    match splitFirstL ['#'] u2 with
    | Option.some (a, b) => (a, b)
    | Option.none => (u2, [])
  let pq :=
    match splitFirstL ['?'] uf.1 with
    | Option.some (a, b) => (a, b)
    | Option.none => (uf.1, [])
  ⟨String.mk su.1, String.mk nu.1, String.mk pq.1, String.mk pq.2, String.mk uf.2⟩

/-- `parsed_url.hostname`: the netloc after the last `@`, before the first
`:`, lowercased; `None` when empty. -/
def hostnameOf (netloc : String) : Option String :=
  let afterAt := (splitAllL ['@'] netloc.data).getLastD netloc.data
  let h := (takeUntilAny [':'] afterAt).map Char.toLower
  if h.isEmpty then Option.none else Option.some (String.mk h)

/-- `parse_qs(query).get("v", [None])[0]`: the first value bound to `v`.
Pairs without `=` or with an empty value are dropped (the default
`keep_blank_values=False`); percent-decoding is omitted (no claim here
involves quoted values). -/
def watchVParam (query : String) : Option String :=
  let pairs :=
    (splitAllL ['&'] query.data).filterMap (fun part =>
      match splitFirstL ['='] part with
      | Option.some (n, v) => if v.isEmpty then Option.none else Option.some (n, v)
      | Option.none => Option.none)
  match pairs.filter (fun p => decide (p.1 = ['v'])) with
  | [] => Option.none
  | p :: _ => Option.some (String.mk p.2)

/-- `path.split("/")[2]` (guarded by a `startswith` check in every caller,
so index 2 exists; out of range would raise and be converted to `None`). -/
def pathSeg2 (path : List Char) : List Char := (splitAllL ['/'] path).getD 2 []

/-- `get_youtube_video_id` (url_parser.py lines 11-102): the direct-ID
check, then URL dispatch on the hostname, retrying with an `https://`
prefix when no hostname was found but a YouTube host substring occurs. -/
def get_youtube_video_id (url_or_id : String) : Option String :=
  if isDirectVideoId url_or_id then Option.some url_or_id
  else
    let p0 := pyUrlparse url_or_id
    let hp :=
      match hostnameOf p0.netloc with
      | Option.some h => Option.some (p0, h)
      | Option.none =>
        if pyInStr "youtube.com" url_or_id || pyInStr "youtu.be" url_or_id then
          let p1 := pyUrlparse ("https://" ++ url_or_id)
          match hostnameOf p1.netloc with
          | Option.some h => Option.some (p1, h)
          | Option.none => Option.some (p1, "")
        else Option.none
    match hp with
    | Option.none => Option.none
    | Option.some (parsed, hostname) =>
      if hostname = "youtu.be" || hostname = "www.youtu.be" then
        Option.some (String.mk (splitHeadL ['&'] (splitHeadL ['?'] (parsed.path.data.drop 1))))
      else if hostname = "www.youtube.com" || hostname = "youtube.com" ||
          hostname = "m.youtube.com" || hostname = "music.youtube.com" then
        if parsed.path = "/watch" || strIsPre "/watch?" parsed.path then
          watchVParam parsed.query
        else if strIsPre "/embed/" parsed.path then
          Option.some (String.mk (splitHeadL ['?'] (pathSeg2 parsed.path.data)))
        else if strIsPre "/v/" parsed.path then
          Option.some (String.mk (splitHeadL ['?'] (pathSeg2 parsed.path.data)))
        else if strIsPre "/shorts/" parsed.path then
          Option.some (String.mk (splitHeadL ['?'] (pathSeg2 parsed.path.data)))
        else if strIsPre "/live/" parsed.path then
          Option.some (String.mk (splitHeadL ['?'] (pathSeg2 parsed.path.data)))
        else Option.none
      else Option.none

/-
  services/storage.py — TranscriptStorage. Python dicts are modelled as
  insertion-ordered association lists with unique keys, exactly the
  behavior of dict assignment / membership / update.
-/

/-- Python `d[k]` lookup (as an option). -/
def dictGet (d : List (String × PyVal)) (k : String) : Option PyVal :=
  match d with
  | [] => Option.none
  | kv :: rest => if kv.1 = k then Option.some kv.2 else dictGet rest k

/-- Python `k in d`. -/
def dictHas (d : List (String × PyVal)) (k : String) : Bool := (dictGet d k).isSome

/-- Python `d[k] = v`: replace in place, or append a new key at the end. -/
def dictSet (d : List (String × PyVal)) (k : String) (v : PyVal) : List (String × PyVal) :=
  match d with
  | [] => [(k, v)]
  | kv :: rest => if kv.1 = k then (k, v) :: rest else kv :: dictSet rest k v

/-- Python `d.update(m)`. -/
def dictUpdate (d m : List (String × PyVal)) : List (String × PyVal) :=
  m.foldl (fun acc kv => dictSet acc kv.1 kv.2) d

/-- `TranscriptStorage.STORAGE_PREFIX` (storage.py line 19). -/
def storageNamespace : String := "transcript_storage"

/-- `TranscriptStorage.METADATA_PREFIX` (storage.py line 20). -/
def metadataNamespace : String := "transcript_metadata"

/-- `TranscriptStorage._get_storage_key` (storage.py lines 27-31); an empty
language string is falsy and yields the default key. -/
def storageKey (video_id : String) (language : Option String) : String :=
  match language with
  | Option.some lang =>
    if lang = "" then storageNamespace ++ ":" ++ video_id
    else storageNamespace ++ ":" ++ video_id ++ ":" ++ lang
  | Option.none => storageNamespace ++ ":" ++ video_id

/-- `TranscriptStorage._get_metadata_key` (storage.py lines 33-35). -/
def metadataKey (video_id : String) : String := metadataNamespace ++ ":" ++ video_id

/-- The storage service: built on the shared cache client; `enabled` copies
`cache.enabled` (storage.py lines 22-25). -/
structure TranscriptStorage where
  cache : RedisCache
  enabled : Bool

/-- `TranscriptStorage.__init__`. -/
def TranscriptStorage.init (c : RedisCache) : TranscriptStorage := ⟨c, c.enabled⟩

/-- `TranscriptStorage.get_metadata` (storage.py lines 145-166). The
metadata key is written only by `save_transcript`, always with a serialized
JSON object, which is truthy; a non-object there is unreachable. -/
def TranscriptStorage.get_metadata (st : TranscriptStorage) (r : Redis) (video_id : String) :
    Option (List (String × PyVal)) :=
  if st.enabled then
    match r.getVal (metadataKey video_id) with
    | Option.some (RStr.json (PyVal.dict d)) => Option.some d
    | _ => Option.none
  else Option.none

/-- The `languages` maintenance of `save_transcript` (storage.py lines
72-76): ensure the list exists, then append the language when absent.
`Option.none` stands for the TypeError/AttributeError raised when an
earlier metadata write replaced `languages` with a non-list (caught by the
surrounding handler, making the save return False). -/
def languagesStep (existing : List (String × PyVal)) (language : Option String) :
    Option (List (String × PyVal)) :=
  match language with
  | Option.none => Option.some existing
  | Option.some lang =>
    if lang = "" then Option.some existing
    else
      let e1 := if dictHas existing "languages" then existing
                else dictSet existing "languages" (PyVal.list [])
      match dictGet e1 "languages" with
      | Option.some (PyVal.list ls) =>
        Option.some
          (if ls.any (fun v => match v with | PyVal.str t => decide (t = lang) | _ => false)
           then e1
           else dictSet e1 "languages" (PyVal.list (ls ++ [PyVal.str lang])))
      | _ => Option.none

/-- `TranscriptStorage.save_transcript` (storage.py lines 37-94): SETEX the
transcript under the (id, language) key with a ten-year TTL, then merge the
metadata record: union the language in, `update` with the caller's
metadata, refresh `last_updated`, set `created_at` only when absent. `ts`
is the value of `datetime.now().isoformat()` during this call. -/
def TranscriptStorage.save_transcript (st : TranscriptStorage) (r : Redis)
    (video_id transcript : String) (language : Option String)
    (metadata : Option (List (String × PyVal))) (ts : String) : Bool × Redis :=
  if st.enabled then
    let r1 := r.setex (storageKey video_id language) 315360000 (RStr.raw transcript)
    let existing := (st.get_metadata r1 video_id).getD []
    match languagesStep existing language with
    | Option.none => (false, r1)
    | Option.some e1 =>
      let e2 := dictUpdate e1 (metadata.getD [])
      let e3 := dictSet e2 "last_updated" (PyVal.str ts)
      let e4 := if dictHas e3 "created_at" then e3 else dictSet e3 "created_at" (PyVal.str ts)
      (true, r1.setex (metadataKey video_id) 315360000 (RStr.json (PyVal.dict e4)))
  else (false, r)

/-- `TranscriptStorage.get_transcript` (storage.py lines 96-143): exact
language first, then the default key, then the first key found under
`transcript_storage:{id}:*`. An empty stored transcript is falsy and is
skipped (and, in the scan arm, makes the function return None). Transcript
keys hold raw text; a JSON-holding entry there is unreachable. -/
def TranscriptStorage.get_transcript (st : TranscriptStorage) (r : Redis) (video_id : String)
    (language : Option String) : Option String :=
  if st.enabled then
    let byLang :=
      match language with
      | Option.some lang =>
        if lang = "" then Option.none
        else
          match r.getVal (storageKey video_id (Option.some lang)) with
          | Option.some (RStr.raw t) => if t.isEmpty then Option.none else Option.some t
          | _ => Option.none
      | Option.none => Option.none
    match byLang with
    | Option.some t => Option.some t
    | Option.none =>
      match r.getVal (storageKey video_id Option.none) with
      | Option.some (RStr.raw t) =>
        if t.isEmpty then
          match r.keysWithPre (storageNamespace ++ ":" ++ video_id ++ ":") with
          | [] => Option.none
          | k :: _ =>
            match r.getVal k with
            | Option.some (RStr.raw u) => if u.isEmpty then Option.none else Option.some u
            | _ => Option.none
        else Option.some t
      | _ =>
        match r.keysWithPre (storageNamespace ++ ":" ++ video_id ++ ":") with
        | [] => Option.none
        | k :: _ =>
          match r.getVal k with
          | Option.some (RStr.raw u) => if u.isEmpty then Option.none else Option.some u
          | _ => Option.none
  else Option.none

/-- Python `key.replace(old, new)` for a non-empty `old` (replace all
occurrences), fuel-driven so it reduces. -/
def replaceAllAux (pat rep : List Char) : Nat → List Char → List Char
  | 0, l => l
  | fuel + 1, l =>
    match splitFirstL pat l with
    | Option.some (a, b) => a ++ rep ++ replaceAllAux pat rep fuel b
    | Option.none => l

/-- Python `s.replace(old, new)`. -/
def strReplace (s old new : String) : String :=
  String.mk (replaceAllAux old.data new.data (s.data.length + 1) s.data)

/-- `TranscriptStorage.list_stored_videos` (storage.py lines 168-197): scan
metadata keys up to `limit`, fetch each record, skip empty (falsy) records,
and tag each with its `video_id`. -/
def TranscriptStorage.list_stored_videos (st : TranscriptStorage) (r : Redis) (limit : Nat) :
    List (List (String × PyVal)) :=
  if st.enabled then
    let keys := (r.keysWithPre (metadataNamespace ++ ":")).take limit
    keys.filterMap (fun k =>
      let video_id := strReplace k (metadataNamespace ++ ":") ""
      match st.get_metadata r video_id with
      | Option.some m =>
        if m.isEmpty then Option.none
        else Option.some (dictSet m "video_id" (PyVal.str video_id))
      | Option.none => Option.none)
  else []

/-- The language-less arm of `delete_transcript` (storage.py lines 219-228):
delete every key matching `transcript_storage:{id}*` — note the missing
separator before the wildcard — then the metadata key. -/
def deleteAllLangs (r : Redis) (video_id : String) : Redis :=
  let keys := r.keysWithPre (storageNamespace ++ ":" ++ video_id)
  let r1 := if keys.isEmpty then r else r.del keys
  r1.del [metadataKey video_id]

/-- `TranscriptStorage.delete_transcript` (storage.py lines 199-234): with
a (truthy) language, delete only that variant's key; otherwise delete all
variants and the metadata record. -/
def TranscriptStorage.delete_transcript (st : TranscriptStorage) (r : Redis) (video_id : String)
    (language : Option String) : Bool × Redis :=
  if st.enabled then
    match language with
    | Option.some lang =>
      if lang = "" then (true, deleteAllLangs r video_id)
      else (true, r.del [storageKey video_id (Option.some lang)])
    | Option.none => (true, deleteAllLangs r video_id)
  else (false, r)

/-- `TranscriptStorage.get_storage_stats` (storage.py lines 236-257). -/
def TranscriptStorage.get_storage_stats (st : TranscriptStorage) (r : Redis) : PyVal :=
  if st.enabled then
    PyVal.dict
      [("enabled", PyVal.bool true),
       ("total_transcripts", PyVal.int (r.keysWithPre (storageNamespace ++ ":")).length),
       ("total_videos", PyVal.int (r.keysWithPre (metadataNamespace ++ ":")).length)]
  else PyVal.dict [("enabled", PyVal.bool false)]

/-
  Helper lemmas: strings, prefixes, and the backend model.
-/

theorem strdata_append (a b : String) : (a ++ b).data = a.data ++ b.data := rfl

theorem str_ext {a b : String} (h : a.data = b.data) : a = b := by
  cases a
  cases b
  exact congrArg String.mk (by simpa using h)

theorem str_length_data (s : String) : s.length = s.data.length := rfl

theorem listIsPre_self_append (l m : List Char) : listIsPre l (l ++ m) = true := by
  induction l with
  | nil => rfl
  | cons c cs ih => simpa [listIsPre] using ih

theorem listIsPre_append_cancel (x p s : List Char) :
    listIsPre (x ++ p) (x ++ s) = listIsPre p s := by
  induction x with
  | nil => rfl
  | cons c cs ih => simpa [listIsPre] using ih

theorem eq_take_of_listIsPre : ∀ {p s : List Char}, listIsPre p s = true → s.take p.length = p := by
  intro p
  induction p with
  | nil => intro s _; simp
  | cons c cs ih =>
    intro s h
    cases s with
    | nil => simp [listIsPre] at h
    | cons d ds =>
      simp only [listIsPre] at h
      by_cases hc : c = d
      · subst hc
        simp only [if_pos rfl] at h
        simp [List.take, ih h]
      · simp [hc] at h

theorem rlookup_mem {st : List REntry} {k : String} {e : REntry}
    (h : rlookup st k = Option.some e) : e ∈ st ∧ e.key = k := by
  induction st with
  | nil => simp [rlookup] at h
  | cons x xs ih =>
    by_cases hx : x.key = k
    · simp only [rlookup, if_pos hx, Option.some.injEq] at h
      subst h
      exact ⟨List.mem_cons_self _ _, hx⟩
    · simp only [rlookup, if_neg hx] at h
      exact ⟨List.mem_cons_of_mem _ (ih h).1, (ih h).2⟩

theorem rlookup_filter_keep {p : REntry → Bool} {st : List REntry} {k : String}
    (hk : ∀ e : REntry, e.key = k → p e = true) :
    rlookup (st.filter p) k = rlookup st k := by
  induction st with
  | nil => rfl
  | cons x xs ih =>
    by_cases hx : x.key = k
    · rw [List.filter_cons_of_pos (hk x hx)]
      simp [rlookup, hx, ih]
    · by_cases hp : p x
      · rw [List.filter_cons_of_pos hp]
        simp [rlookup, hx, ih]
      · rw [List.filter_cons_of_neg (by simpa using hp)]
        simp [rlookup, hx, ih]

theorem rlookup_filter_drop {p : REntry → Bool} {st : List REntry} {k : String}
    (hk : ∀ e : REntry, e.key = k → p e = false) :
    rlookup (st.filter p) k = Option.none := by
  induction st with
  | nil => rfl
  | cons x xs ih =>
    by_cases hx : x.key = k
    · rw [List.filter_cons_of_neg (by simp [hk x hx])]
      exact ih
    · by_cases hp : p x
      · rw [List.filter_cons_of_pos hp]
        simp [rlookup, hx, ih]
      · rw [List.filter_cons_of_neg (by simpa using hp)]
        exact ih

theorem getVal_del_mem {r : Redis} {ks : List String} {k : String} (h : k ∈ ks) :
    (r.del ks).getVal k = Option.none := by
  unfold Redis.del Redis.getVal
  rw [rlookup_filter_drop (fun e he => by simp [he, h])]

theorem getVal_del_not_mem {r : Redis} {ks : List String} {k : String} (h : k ∉ ks) :
    (r.del ks).getVal k = r.getVal k := by
  unfold Redis.del Redis.getVal
  rw [rlookup_filter_keep (fun e he => by simp [he, h])]

theorem getVal_del_none {r : Redis} {ks : List String} {k : String}
    (h : r.getVal k = Option.none) : (r.del ks).getVal k = Option.none := by
  by_cases hk : k ∈ ks
  · exact getVal_del_mem hk
  · rw [getVal_del_not_mem hk, h]

theorem getVal_setex_self (r : Redis) (k : String) (ttl : Nat) (v : RStr) (h : 0 < ttl) :
    (r.setex k ttl v).getVal k = Option.some v := by
  unfold Redis.setex Redis.getVal
  simp [rlookup]
  omega

theorem getVal_setex_ne {k k2 : String} (h : k ≠ k2) (r : Redis) (ttl : Nat) (v : RStr) :
    (r.setex k2 ttl v).getVal k = r.getVal k := by
  unfold Redis.setex Redis.getVal
  simp only [rlookup, if_neg (by simpa using Ne.symm h)]
  rw [rlookup_filter_keep (fun e he => by simp [he, h])]

theorem getVal_tick_setex_self (r : Redis) (k : String) (ttl dt : Nat) (v : RStr) (h : dt < ttl) :
    ((r.setex k ttl v).tick dt).getVal k = Option.some v := by
  unfold Redis.setex Redis.tick Redis.getVal
  simp [rlookup]
  omega

theorem mem_keysWithPre_intro {r : Redis} {e : REntry} (he : e ∈ r.store) {p : String}
    (hp : strIsPre p e.key = true) (hl : r.now < e.expiresAt) : e.key ∈ r.keysWithPre p := by
  unfold Redis.keysWithPre
  exact List.mem_map_of_mem _ (List.mem_filter.mpr ⟨he, by simp [hp, hl]⟩)

theorem of_mem_keysWithPre {r : Redis} {p x : String} (h : x ∈ r.keysWithPre p) :
    strIsPre p x = true := by
  unfold Redis.keysWithPre at h
  rcases List.mem_map.mp h with ⟨e, he, hex⟩
  rcases List.mem_filter.mp he with ⟨_, hcond⟩
  subst hex
  simp only [Bool.and_eq_true, decide_eq_true_eq] at hcond
  exact hcond.1

theorem getVal_eq_none_of_dead {r : Redis} {p k : String} (hp : strIsPre p k = true)
    (h : k ∉ r.keysWithPre p) : r.getVal k = Option.none := by
  unfold Redis.getVal
  cases hl : rlookup r.store k with
  | none => rfl
  | some e =>
    rcases rlookup_mem hl with ⟨hmem, hkey⟩
    by_cases hlive : r.now < e.expiresAt
    · exact absurd (hkey ▸ mem_keysWithPre_intro hmem (hkey ▸ hp) hlive) h
    · simp [hlive]

theorem keysWithPre_del_sub (r : Redis) (ks : List String) (p : String) :
    (r.del ks).keysWithPre p ⊆ r.keysWithPre p := by
  intro x hx
  unfold Redis.del Redis.keysWithPre at hx
  unfold Redis.keysWithPre
  rcases List.mem_map.mp hx with ⟨e, he, hex⟩
  rcases List.mem_filter.mp he with ⟨he2, hcond⟩
  exact hex ▸ List.mem_map_of_mem _ (List.mem_filter.mpr ⟨(List.mem_filter.mp he2).1, hcond⟩)

theorem keysWithPre_del_self (r : Redis) (p : String) :
    (r.del (r.keysWithPre p)).keysWithPre p = [] := by
  unfold Redis.del Redis.keysWithPre
  rw [List.map_eq_nil_iff]
  rw [List.filter_filter]
  apply List.filter_eq_nil_iff.mpr
  intro e he
  intro hcond
  simp only [Bool.and_eq_true, decide_eq_true_eq] at hcond
  rcases hcond with ⟨⟨hpre, hlive⟩, h1⟩
  have : e.key ∈ r.keysWithPre p := mem_keysWithPre_intro he hpre hlive
  exact h1 this

theorem strIsPre_tag_storageKey (vid : String) (lang : Option String) :
    strIsPre "transcript_s" (storageKey vid lang) = true := by
  cases lang with
  | none => rfl
  | some l =>
    by_cases hl : l = ""
    · simp only [storageKey, if_pos hl]
      rfl
    · simp only [storageKey, if_neg hl]
      rfl

theorem strIsPre_tag_metadataKey (vid : String) :
    strIsPre "transcript_s" (metadataKey vid) = false := rfl

theorem storageKey_ne_metadataKey (vid : String) (lang : Option String) (vid2 : String) :
    storageKey vid lang ≠ metadataKey vid2 := by
  intro h
  have := strIsPre_tag_storageKey vid lang
  rw [h, strIsPre_tag_metadataKey] at this
  exact Bool.false_ne_true this

theorem strIsPre_cacheNs_storageKey (vid : String) (lang : Option String) :
    strIsPre "youtube_api:" (storageKey vid lang) = false := by
  cases lang with
  | none => rfl
  | some l =>
    by_cases hl : l = ""
    · simp only [storageKey, if_pos hl]
      rfl
    · simp only [storageKey, if_neg hl]
      rfl

theorem strIsPre_cacheNs_metadataKey (vid : String) :
    strIsPre "youtube_api:" (metadataKey vid) = false := rfl

theorem metadataKey_inj {v1 v2 : String} (h : metadataKey v1 = metadataKey v2) : v1 = v2 := by
  have hd : (metadataKey v1).data = (metadataKey v2).data := congrArg String.data h
  unfold metadataKey metadataNamespace at hd
  rw [strdata_append, strdata_append, strdata_append, strdata_append] at hd
  rw [List.append_assoc, List.append_assoc] at hd
  exact str_ext (List.append_cancel_left (List.append_cancel_left hd))

theorem storageKey_some_inj {vid l1 l2 : String} (h1 : l1 ≠ "") (h2 : l2 ≠ "")
    (h : storageKey vid (Option.some l1) = storageKey vid (Option.some l2)) : l1 = l2 := by
  simp only [storageKey, if_neg h1, if_neg h2] at h
  have hd := congrArg String.data h
  rw [strdata_append, strdata_append] at hd
  exact str_ext (List.append_cancel_left hd)

theorem storageKey_none_ne_some {vid l : String} (hl : l ≠ "") :
    storageKey vid Option.none ≠ storageKey vid (Option.some l) := by
  intro h
  simp only [storageKey, if_neg hl] at h
  have hd := congrArg (fun s : String => s.data.length) h
  simp only [strdata_append, List.length_append] at hd
  have : l.data.length = 0 := by omega
  exact hl (str_ext (by simpa using List.length_eq_zero.mp this))

instance : IsTrans (String × String) pairLeRel :=
  ⟨by
    intro a b c hab hbc
    rcases hab with h1 | ⟨h1, h1v⟩
    · rcases hbc with h2 | ⟨h2, _⟩
      · exact Or.inl (lt_trans h1 h2)
      · exact Or.inl (h2 ▸ h1)
    · rcases hbc with h2 | ⟨h2, h2v⟩
      · exact Or.inl (h1 ▸ h2)
      · exact Or.inr ⟨h1.trans h2, le_trans h1v h2v⟩⟩

instance : IsTotal (String × String) pairLeRel :=
  ⟨by
    intro a b
    rcases lt_trichotomy a.1 b.1 with h | h | h
    · exact Or.inl (Or.inl h)
    · rcases le_total a.2 b.2 with hv | hv
      · exact Or.inl (Or.inr ⟨h, hv⟩)
      · exact Or.inr (Or.inr ⟨h.symm, hv⟩)
    · exact Or.inr (Or.inl h)⟩

instance : IsAntisymm (String × String) pairLeRel :=
  ⟨by
    intro a b hab hba
    rcases hab with h1 | ⟨h1, h1v⟩
    · rcases hba with h2 | ⟨h2, _⟩
      · exact absurd h2 (lt_asymm h1)
      · exact absurd (h2 ▸ h1) (lt_irrefl _)
    · rcases hba with h2 | ⟨h2, h2v⟩
      · exact absurd (h1 ▸ h2) (lt_irrefl _)
      · cases a
        cases b
        simp only at h1 h1v h2v
        subst h1
        simp [le_antisymm h1v h2v]⟩

/-- Sorting under the Python tuple order is permutation-invariant: any two
orderings of the same keyword items sort to the same list. -/
theorem insertionSort_eq_of_perm {l1 l2 : List (String × String)} (h : l1.Perm l2) :
    l1.insertionSort pairLeRel = l2.insertionSort pairLeRel :=
  List.eq_of_perm_of_sorted
    ((List.perm_insertionSort _ _).trans (h.trans (List.perm_insertionSort _ _).symm))
    (List.sorted_insertionSort _ _) (List.sorted_insertionSort _ _)

theorem hexcat_length (l : List Nat) :
    (l.foldr (fun b acc => hexByte b ++ acc) []).length = 2 * l.length := by
  induction l with
  | nil => rfl
  | cons b bs ih =>
    rw [List.foldr_cons, List.length_append, ih]
    simp only [hexByte, List.length_cons, List.length_nil, List.length_singleton]
    omega

theorem md5Final_length (st : Nat × Nat × Nat × Nat) : (md5Final st).length = 16 := by
  simp [md5Final, leBytes4]

theorem md5Digest_length (msg : List Nat) : (md5Digest msg).length = 16 :=
  md5Final_length _

theorem md5hex_length (msg : List Nat) : (md5hex msg).length = 32 := by
  unfold md5hex
  rw [str_length_data]
  show ((md5Digest msg).foldr (fun b acc => hexByte b ++ acc) []).length = 32
  rw [hexcat_length, md5Digest_length]

/-
  Claim theorems.
-/

/-- C1: cache key generation is deterministic and insensitive to
keyword-argument ordering: the same arguments give the same key, any
permutation of the keyword items gives the same key (they are sorted by the
tuple order before hashing, positional order preserved inside the hashed
text), and the key has the shape `youtube_api:` + operation prefix + `:` +
a 32-hex-character (128-bit) MD5 content hash. -/
theorem C1_generate_key_deterministic (c : RedisCache) (pre : String) (args : List String)
    (kw kw2 : List (String × String)) (hperm : kw.Perm kw2) :
    c._generate_key pre args kw = c._generate_key pre args kw
    ∧ c._generate_key pre args kw2 = c._generate_key pre args kw
    ∧ ∃ h : String, c._generate_key pre args kw = "youtube_api:" ++ pre ++ ":" ++ h
        ∧ h.length = 32 := by
  refine ⟨rfl, ?_, ?_⟩
  · unfold RedisCache._generate_key
    rw [insertionSort_eq_of_perm hperm.symm]
  · exact ⟨md5hex (strBytes (String.intercalate ":"
      (args ++ (kw.insertionSort pairLeRel).map (fun kv => kv.1 ++ "=" ++ kv.2)))),
      rfl, md5hex_length _⟩

/-- Witness for C1 at concrete inputs: the two keyword orderings are a
permutation of each other and produce the same key. -/
theorem C1_witness :
    ([("b", "2"), ("a", "1")] : List (String × String)).Perm [("a", "1"), ("b", "2")]
    ∧ (RedisCache.init (Option.some "redis://localhost") 3600 true)._generate_key "video_data"
        ["x"] [("a", "1"), ("b", "2")] =
      (RedisCache.init (Option.some "redis://localhost") 3600 true)._generate_key "video_data"
        ["x"] [("b", "2"), ("a", "1")] :=
  ⟨by decide,
   (C1_generate_key_deterministic (RedisCache.init (Option.some "redis://localhost") 3600 true)
     "video_data" ["x"] [("b", "2"), ("a", "1")] [("a", "1"), ("b", "2")] (by decide)).2.1⟩

/-- C5: every string of exactly 11 characters over the allowed alphabet is
returned unchanged by the parser (the direct-ID branch fires before any URL
parsing is attempted). -/
theorem C5_direct_id_returned_unchanged (s : String) (hlen : s.length = 11)
    (hchars : ∀ c ∈ s.data, pyAllowedIdChar c = true) :
    get_youtube_video_id s = Option.some s := by
  have hd : isDirectVideoId s = true := by
    unfold isDirectVideoId
    rw [Bool.and_eq_true]
    exact ⟨by simp [hlen], List.all_eq_true.mpr hchars⟩
  unfold get_youtube_video_id
  rw [if_pos hd]

/-- Witness for C5 at the concrete identifier from the test suite. -/
theorem C5_witness :
    ("dQw4w9WgXcQ" : String).length = 11
    ∧ (∀ c ∈ ("dQw4w9WgXcQ" : String).data, pyAllowedIdChar c = true)
    ∧ get_youtube_video_id "dQw4w9WgXcQ" = Option.some "dQw4w9WgXcQ" :=
  ⟨by decide, by decide,
   C5_direct_id_returned_unchanged "dQw4w9WgXcQ" (by decide) (by decide)⟩

/-- C6 counterexample: the short-link branch returns the raw path segment
without validating it, so parsing succeeds with a 3-character identifier. -/
theorem C6_counterexample :
    get_youtube_video_id "https://youtu.be/abc" = Option.some "abc"
    ∧ ("abc" : String).length ≠ 11 := by
  exact ⟨rfl, by decide⟩

/-- C6 amended: the 11-character/allowed-alphabet invariant holds for every
identifier produced by the direct-ID branch; identifiers extracted by the
URL branches are returned without validation and can violate it. -/
theorem C6_amended_direct_branch_invariant (s v : String) (hdirect : isDirectVideoId s = true)
    (hparse : get_youtube_video_id s = Option.some v) :
    v.length = 11 ∧ ∀ c ∈ v.data, pyAllowedIdChar c = true := by
  unfold get_youtube_video_id at hparse
  rw [if_pos hdirect] at hparse
  have hv : s = v := by injection hparse
  subst hv
  unfold isDirectVideoId at hdirect
  rw [Bool.and_eq_true] at hdirect
  exact ⟨by simpa using hdirect.1, List.all_eq_true.mp hdirect.2⟩

/-- Witness for the amended C6 at a concrete direct identifier. -/
theorem C6_witness :
    isDirectVideoId "dQw4w9WgXcQ" = true
    ∧ ("dQw4w9WgXcQ" : String).length = 11
    ∧ ∀ c ∈ ("dQw4w9WgXcQ" : String).data, pyAllowedIdChar c = true :=
  ⟨by decide,
   C6_amended_direct_branch_invariant "dQw4w9WgXcQ" "dQw4w9WgXcQ" (by decide) rfl⟩

/-- C4: with no backend connection URL the enabled flag is false, and with
the flag false every cache operation (get, set, delete, clear, stats) and
every storage operation (save, get transcript, get metadata, list, delete,
stats) returns its designated disabled result — None, False, the empty
list, or a record with enabled=false — taking no exceptional path (each
disabled branch returns before any backend access). -/
theorem C4_backend_disabled (ttl0 : Nat) (ok : Bool) (c : RedisCache) (hc : c.enabled = false)
    (st : TranscriptStorage) (hst : st.enabled = false) (r : Redis) (key vid t ts : String)
    (lang : Option String) (v : PyVal) (ttl : Option Nat) (m : Option (List (String × PyVal)))
    (lim : Nat) :
    (RedisCache.init Option.none ttl0 ok).enabled = false
    ∧ (TranscriptStorage.init c).enabled = false
    ∧ c.get r key = PyVal.none
    ∧ c.set r key v ttl = (false, r)
    ∧ c.delete r key = (false, r)
    ∧ c.clear_all r = (false, r)
    ∧ c.get_stats r = PyVal.dict [("enabled", PyVal.bool false), ("status", PyVal.str "disabled")]
    ∧ st.save_transcript r vid t lang m ts = (false, r)
    ∧ st.get_transcript r vid lang = Option.none
    ∧ st.get_metadata r vid = Option.none
    ∧ st.list_stored_videos r lim = []
    ∧ st.delete_transcript r vid lang = (false, r)
    ∧ st.get_storage_stats r = PyVal.dict [("enabled", PyVal.bool false)] := by
  refine ⟨rfl, by simp [TranscriptStorage.init, hc], ?_, ?_, ?_, ?_, ?_, ?_, ?_, ?_, ?_, ?_, ?_⟩
  · simp [RedisCache.get, hc]
  · simp [RedisCache.set, hc]
  · simp [RedisCache.delete, hc]
  · simp [RedisCache.clear_all, hc]
  · simp [RedisCache.get_stats, hc]
  · simp [TranscriptStorage.save_transcript, hst]
  · simp [TranscriptStorage.get_transcript, hst]
  · simp [TranscriptStorage.get_metadata, hst]
  · simp [TranscriptStorage.list_stored_videos, hst]
  · simp [TranscriptStorage.delete_transcript, hst]
  · simp [TranscriptStorage.get_storage_stats, hst]

/-- Witness for C4: a cache constructed without a URL and the storage built
on it, on a non-empty backend state. -/
theorem C4_witness :
    (RedisCache.init Option.none 3600 true).enabled = false
    ∧ (TranscriptStorage.init (RedisCache.init Option.none 3600 true)).enabled = false
    ∧ (RedisCache.init Option.none 3600 true).get
        ⟨[⟨"youtube_api:k", RStr.json (PyVal.int 7), 50⟩], 0, 0, 0⟩ "youtube_api:k" = PyVal.none
    ∧ (TranscriptStorage.init (RedisCache.init Option.none 3600 true)).get_metadata
        ⟨[⟨"youtube_api:k", RStr.json (PyVal.int 7), 50⟩], 0, 0, 0⟩ "vid" = Option.none :=
  ⟨rfl, rfl,
   (C4_backend_disabled 3600 true (RedisCache.init Option.none 3600 true) rfl
     (TranscriptStorage.init (RedisCache.init Option.none 3600 true)) rfl
     ⟨[⟨"youtube_api:k", RStr.json (PyVal.int 7), 50⟩], 0, 0, 0⟩ "youtube_api:k" "vid" "t" "ts"
     Option.none PyVal.none Option.none Option.none 10).2.2.1,
   (C4_backend_disabled 3600 true (RedisCache.init Option.none 3600 true) rfl
     (TranscriptStorage.init (RedisCache.init Option.none 3600 true)) rfl
     ⟨[⟨"youtube_api:k", RStr.json (PyVal.int 7), 50⟩], 0, 0, 0⟩ "youtube_api:k" "vid" "t" "ts"
     Option.none PyVal.none Option.none Option.none 10).2.2.2.2.2.2.2.2.2.1⟩

/-- C3: on a cache miss, an error raised by the underlying operation
propagates unchanged through the memoized function, the backend state is
untouched (no cache entry is stored), and the operation was invoked
exactly once. -/
theorem C3_error_propagates_uncached (pre : String) (ttl : Option Nat)
    (f : List String → List (String × String) → Except String PyVal) (c : RedisCache)
    (args : List String) (kwargs : List (String × String)) (r : Redis) (calls : Nat) (e : String)
    (hmiss : (c.get r (c._generate_key pre args kwargs)).isNone = true)
    (herr : f args kwargs = Except.error e) :
    cachedCall pre ttl f c args kwargs r calls = (Except.error e, r, calls + 1) := by
  unfold cachedCall
  simp [hmiss, herr]

/-- Witness for C3: a producer that always fails, on an empty backend. -/
theorem C3_witness :
    ((RedisCache.init (Option.some "redis://localhost") 3600 true).get ⟨[], 0, 0, 0⟩
      ((RedisCache.init (Option.some "redis://localhost") 3600 true)._generate_key "video_data"
        ["u"] [])).isNone = true
    ∧ cachedCall "video_data" Option.none (fun _ _ => Except.error "boom")
        (RedisCache.init (Option.some "redis://localhost") 3600 true) ["u"] [] ⟨[], 0, 0, 0⟩ 0 =
      (Except.error "boom", ⟨[], 0, 0, 0⟩, 1) :=
  ⟨rfl,
   C3_error_propagates_uncached "video_data" Option.none (fun _ _ => Except.error "boom")
     (RedisCache.init (Option.some "redis://localhost") 3600 true) ["u"] [] ⟨[], 0, 0, 0⟩ 0 "boom"
     rfl rfl⟩

/-- Each pass through the memoization wrapper invokes the producer at most
once. -/
theorem cachedCall_calls_le (pre : String) (ttl : Option Nat)
    (f : List String → List (String × String) → Except String PyVal) (c : RedisCache)
    (args : List String) (kwargs : List (String × String)) (r : Redis) (calls : Nat) :
    (cachedCall pre ttl f c args kwargs r calls).2.2 ≤ calls + 1 := by
  unfold cachedCall
  by_cases h : (c.get r (c._generate_key pre args kwargs)).isNone
  · cases hf : f args kwargs <;> simp [h, hf]
  · simp [h]

set_option maxRecDepth 8000 in
/-- C2 counterexample: a wrapped function whose (successful) result is
`None` is invoked on both calls even with the backend enabled and both
calls inside the TTL, because the wrapper's `is not None` hit test treats
the cached null as a miss. -/
theorem C2_counterexample :
    (RedisCache.init (Option.some "redis://localhost") 3600 true).enabled = true
    ∧ (0 : Nat) < effectiveTtl (RedisCache.init (Option.some "redis://localhost") 3600 true)
        Option.none
    ∧ (cachedCall "p" Option.none (fun _ _ => Except.ok PyVal.none)
        (RedisCache.init (Option.some "redis://localhost") 3600 true) [] []
        ((cachedCall "p" Option.none (fun _ _ => Except.ok PyVal.none)
          (RedisCache.init (Option.some "redis://localhost") 3600 true) [] []
          ⟨[], 0, 0, 0⟩ 0).2.1.tick 0)
        (cachedCall "p" Option.none (fun _ _ => Except.ok PyVal.none)
          (RedisCache.init (Option.some "redis://localhost") 3600 true) [] []
          ⟨[], 0, 0, 0⟩ 0).2.2).2.2 = 2 := by
  refine ⟨rfl, by decide, ?_⟩
  rfl

/-- C2 amended: with the backend enabled, a second call with the same
arguments inside the TTL invokes the underlying function at most once in
total, provided the call succeeds with a non-None result; with the backend
disabled, both calls invoke it (two invocations in total). -/
theorem C2_amended_memo_transparency (pre : String) (ttl : Option Nat)
    (f : List String → List (String × String) → Except String PyVal) (c : RedisCache)
    (args : List String) (kwargs : List (String × String)) (r : Redis) (calls dt : Nat)
    (v : PyVal) (hen : c.enabled = true) (hok : f args kwargs = Except.ok v)
    (hv : v.isNone = false) (hdt : dt < effectiveTtl c ttl) :
    (cachedCall pre ttl f c args kwargs
        ((cachedCall pre ttl f c args kwargs r calls).2.1.tick dt)
        (cachedCall pre ttl f c args kwargs r calls).2.2).2.2 ≤ calls + 1
    ∧ ∀ (g : List String → List (String × String) → Except String PyVal) (c2 : RedisCache)
        (r2 : Redis), c2.enabled = false →
        (cachedCall pre ttl g c2 args kwargs
            ((cachedCall pre ttl g c2 args kwargs r2 calls).2.1.tick dt)
            (cachedCall pre ttl g c2 args kwargs r2 calls).2.2).2.2 = calls + 2 := by
  constructor
  · by_cases h1 : (c.get r (c._generate_key pre args kwargs)).isNone
    · have hfirst : cachedCall pre ttl f c args kwargs r calls =
          (Except.ok v, (c.set r (c._generate_key pre args kwargs) v ttl).2, calls + 1) := by
        unfold cachedCall
        simp [h1, hok]
      have hset : (c.set r (c._generate_key pre args kwargs) v ttl).2 =
          r.setex (c._generate_key pre args kwargs) (effectiveTtl c ttl) (RStr.json v) := by
        simp [RedisCache.set, hen]
      have hget2 : c.get ((r.setex (c._generate_key pre args kwargs) (effectiveTtl c ttl)
          (RStr.json v)).tick dt) (c._generate_key pre args kwargs) = v := by
        unfold RedisCache.get
        rw [hen, getVal_tick_setex_self _ _ _ _ _ hdt]
        simp [RStr.truthy]
      rw [hfirst, hset]
      unfold cachedCall
      simp [hget2, hv]
    · have hfirst : cachedCall pre ttl f c args kwargs r calls =
          (Except.ok (c.get r (c._generate_key pre args kwargs)), r, calls) := by
        unfold cachedCall
        simp [h1]
      rw [hfirst]
      exact cachedCall_calls_le _ _ _ _ _ _ _ _
  · intro g c2 r2 h2
    have hstep : ∀ (r3 : Redis) (n : Nat),
        (cachedCall pre ttl g c2 args kwargs r3 n).2 = (r3, n + 1) := by
      intro r3 n
      have hget : c2.get r3 (c2._generate_key pre args kwargs) = PyVal.none := by
        simp [RedisCache.get, h2]
      unfold cachedCall
      cases hg : g args kwargs <;> simp [hget, hg, RedisCache.set, h2, PyVal.isNone]
    have h2a : (cachedCall pre ttl g c2 args kwargs r2 calls).2.1 = r2 := by
      rw [hstep r2 calls]
    have h2b : (cachedCall pre ttl g c2 args kwargs r2 calls).2.2 = calls + 1 := by
      rw [hstep r2 calls]
    rw [h2a, h2b, hstep (r2.tick dt) (calls + 1)]

/-- Witness for the amended C2: an enabled cache serves the second call
from the cache (one invocation); a disabled cache invokes the producer on
both calls. -/
theorem C2_witness :
    (RedisCache.init (Option.some "redis://localhost") 3600 true).enabled = true
    ∧ ((fun (_ : List String) (_ : List (String × String)) => Except.ok (PyVal.int 42)) [] [] =
        (Except.ok (PyVal.int 42) : Except String PyVal))
    ∧ (PyVal.int 42).isNone = false
    ∧ (0 : Nat) < effectiveTtl (RedisCache.init (Option.some "redis://localhost") 3600 true)
        Option.none
    ∧ (cachedCall "video_data" Option.none (fun _ _ => Except.ok (PyVal.int 42))
        (RedisCache.init (Option.some "redis://localhost") 3600 true) [] []
        ((cachedCall "video_data" Option.none (fun _ _ => Except.ok (PyVal.int 42))
          (RedisCache.init (Option.some "redis://localhost") 3600 true) [] []
          ⟨[], 0, 0, 0⟩ 0).2.1.tick 0)
        (cachedCall "video_data" Option.none (fun _ _ => Except.ok (PyVal.int 42))
          (RedisCache.init (Option.some "redis://localhost") 3600 true) [] []
          ⟨[], 0, 0, 0⟩ 0).2.2).2.2 ≤ 0 + 1
    ∧ (cachedCall "video_data" Option.none (fun _ _ => Except.ok (PyVal.int 42))
        (RedisCache.init Option.none 3600 true) [] []
        ((cachedCall "video_data" Option.none (fun _ _ => Except.ok (PyVal.int 42))
          (RedisCache.init Option.none 3600 true) [] []
          ⟨[], 0, 0, 0⟩ 0).2.1.tick 0)
        (cachedCall "video_data" Option.none (fun _ _ => Except.ok (PyVal.int 42))
          (RedisCache.init Option.none 3600 true) [] []
          ⟨[], 0, 0, 0⟩ 0).2.2).2.2 = 0 + 2 :=
  ⟨rfl, rfl, rfl, by decide,
   (C2_amended_memo_transparency "video_data" Option.none
     (fun _ _ => Except.ok (PyVal.int 42))
     (RedisCache.init (Option.some "redis://localhost") 3600 true) [] [] ⟨[], 0, 0, 0⟩ 0 0
     (PyVal.int 42) rfl rfl rfl (by decide)).1,
   (C2_amended_memo_transparency "video_data" Option.none
     (fun _ _ => Except.ok (PyVal.int 42))
     (RedisCache.init (Option.some "redis://localhost") 3600 true) [] [] ⟨[], 0, 0, 0⟩ 0 0
     (PyVal.int 42) rfl rfl rfl (by decide)).2
     (fun _ _ => Except.ok (PyVal.int 42)) (RedisCache.init Option.none 3600 true)
     ⟨[], 0, 0, 0⟩ rfl⟩

theorem str_append_assoc (a b c : String) : a ++ b ++ c = a ++ (b ++ c) :=
  str_ext (by simp [strdata_append])

theorem strIsPre_self_append (p q : String) : strIsPre p (p ++ q) = true := by
  unfold strIsPre
  rw [strdata_append]
  exact listIsPre_self_append _ _

theorem strIsPre_refl (p : String) : strIsPre p p = true := by
  unfold strIsPre
  simpa using listIsPre_self_append p.data []

theorem strIsPre_delPattern_storageKey (vid : String) (lang : Option String) :
    strIsPre (storageNamespace ++ ":" ++ vid) (storageKey vid lang) = true := by
  cases lang with
  | none => exact strIsPre_refl _
  | some l =>
    by_cases hl : l = ""
    · simp only [storageKey, if_pos hl]
      exact strIsPre_refl _
    · simp only [storageKey, if_neg hl]
      rw [str_append_assoc (storageNamespace ++ ":" ++ vid) ":" l]
      exact strIsPre_self_append _ _

theorem getVal_deleteAllLangs_pre {r : Redis} {vid k : String}
    (hk : strIsPre (storageNamespace ++ ":" ++ vid) k = true) :
    (deleteAllLangs r vid).getVal k = Option.none := by
  by_cases hks : (r.keysWithPre (storageNamespace ++ ":" ++ vid)).isEmpty
  · simp only [deleteAllLangs, hks, if_true]
    apply getVal_del_none
    apply getVal_eq_none_of_dead hk
    rw [List.isEmpty_iff] at hks
    rw [hks]
    exact List.not_mem_nil _
  · simp only [deleteAllLangs, if_neg hks]
    apply getVal_del_none
    by_cases hm : k ∈ r.keysWithPre (storageNamespace ++ ":" ++ vid)
    · exact getVal_del_mem hm
    · rw [getVal_del_not_mem hm]
      exact getVal_eq_none_of_dead hk hm

theorem getVal_deleteAllLangs_meta (r : Redis) (vid : String) :
    (deleteAllLangs r vid).getVal (metadataKey vid) = Option.none :=
  getVal_del_mem (by simp)

theorem getVal_deleteAllLangs_other {r : Redis} {vid k : String}
    (hk : strIsPre (storageNamespace ++ ":" ++ vid) k = false) (hm : k ≠ metadataKey vid) :
    (deleteAllLangs r vid).getVal k = r.getVal k := by
  by_cases hks : (r.keysWithPre (storageNamespace ++ ":" ++ vid)).isEmpty
  · simp only [deleteAllLangs, hks, if_true]
    rw [getVal_del_not_mem (by simp [hm])]
  · simp only [deleteAllLangs, if_neg hks]
    rw [getVal_del_not_mem (by simp [hm])]
    apply getVal_del_not_mem
    intro hmem
    rw [of_mem_keysWithPre hmem] at hk
    simp at hk

theorem listIsPre_of_eq_length {p q : List Char} (t : List Char) (hlen : p.length = q.length)
    (h : listIsPre p (q ++ t) = true) : p = q := by
  have htake := eq_take_of_listIsPre h
  rw [hlen, List.take_left] at htake
  exact htake.symm

theorem not_pre_storagePattern_of_ne {id1 id2 : String} (hlen : id1.length = id2.length)
    (hne : id1 ≠ id2) (lang : Option String) :
    strIsPre (storageNamespace ++ ":" ++ id1) (storageKey id2 lang) = false := by
  have hdlen : id1.data.length = id2.data.length := by
    rw [← str_length_data, ← str_length_data, hlen]
  have key : ∀ t : List Char,
      listIsPre (storageNamespace ++ ":" ++ id1).data
        ((storageNamespace ++ ":" ++ id2).data ++ t) = false := by
    intro t
    by_contra hcon
    rw [Bool.not_eq_false] at hcon
    rw [strdata_append (storageNamespace ++ ":") id1,
      strdata_append (storageNamespace ++ ":") id2, List.append_assoc] at hcon
    rw [listIsPre_append_cancel] at hcon
    exact hne (str_ext (listIsPre_of_eq_length t hdlen hcon))
  cases lang with
  | none =>
    unfold strIsPre
    simpa using key []
  | some l =>
    by_cases hl : l = ""
    · simp only [storageKey, if_pos hl]
      unfold strIsPre
      simpa using key []
    · simp only [storageKey, if_neg hl]
      unfold strIsPre
      rw [str_append_assoc (storageNamespace ++ ":" ++ id2) ":" l, strdata_append]
      exact key (":" ++ l).data

theorem not_pre_storagePattern_metadataKey (id1 id2 : String) :
    strIsPre (storageNamespace ++ ":" ++ id1) (metadataKey id2) = false := rfl

/-- C8: deleting with no language removes the transcript key of every
language variant of the id plus its metadata record, so a following
`get_metadata` is absent; deleting with a (truthy) language removes only
that variant's key and leaves the metadata record, every other language
variant, and the default key unchanged. -/
theorem C8_storage_deletion_law (st : TranscriptStorage) (r : Redis) (vid lang : String)
    (hen : st.enabled = true) (hlang : lang ≠ "") :
    (st.delete_transcript r vid Option.none).1 = true
    ∧ (∀ l : Option String,
        ((st.delete_transcript r vid Option.none).2).getVal (storageKey vid l) = Option.none)
    ∧ st.get_metadata (st.delete_transcript r vid Option.none).2 vid = Option.none
    ∧ (st.delete_transcript r vid (Option.some lang)).1 = true
    ∧ ((st.delete_transcript r vid (Option.some lang)).2).getVal
        (storageKey vid (Option.some lang)) = Option.none
    ∧ st.get_metadata (st.delete_transcript r vid (Option.some lang)).2 vid =
        st.get_metadata r vid
    ∧ (∀ l : String, l ≠ lang →
        ((st.delete_transcript r vid (Option.some lang)).2).getVal
          (storageKey vid (Option.some l)) = r.getVal (storageKey vid (Option.some l)))
    ∧ ((st.delete_transcript r vid (Option.some lang)).2).getVal (storageKey vid Option.none) =
        r.getVal (storageKey vid Option.none) := by
  have hdelAll : st.delete_transcript r vid Option.none = (true, deleteAllLangs r vid) := by
    simp [TranscriptStorage.delete_transcript, hen]
  have hdelOne : st.delete_transcript r vid (Option.some lang) =
      (true, r.del [storageKey vid (Option.some lang)]) := by
    simp [TranscriptStorage.delete_transcript, hen, hlang]
  refine ⟨by rw [hdelAll], ?_, ?_, by rw [hdelOne], ?_, ?_, ?_, ?_⟩
  · intro l
    rw [hdelAll]
    exact getVal_deleteAllLangs_pre (strIsPre_delPattern_storageKey vid l)
  · rw [hdelAll]
    simp [TranscriptStorage.get_metadata, hen, getVal_deleteAllLangs_meta]
  · rw [hdelOne]
    exact getVal_del_mem (by simp)
  · rw [hdelOne]
    unfold TranscriptStorage.get_metadata
    rw [getVal_del_not_mem
      (by simp [Ne.symm (storageKey_ne_metadataKey vid (Option.some lang) vid)])]
  · intro l hl
    rw [hdelOne]
    apply getVal_del_not_mem
    by_cases hle : l = ""
    · subst hle
      have : storageKey vid (Option.some "") = storageKey vid Option.none := by
        simp [storageKey]
      rw [this]
      simp [storageKey_none_ne_some hlang]
    · intro hmem
      rcases List.mem_singleton.mp hmem with heq
      exact hl (storageKey_some_inj hle hlang heq)
  · rw [hdelOne]
    apply getVal_del_not_mem
    simp [storageKey_none_ne_some hlang]

/-- Witness for C8 at a concrete state holding two language variants and a
metadata record for one id. -/
theorem C8_witness :
    (TranscriptStorage.init (RedisCache.init (Option.some "redis://localhost") 3600 true)).enabled
      = true
    ∧ ("en" : String) ≠ ""
    ∧ (((TranscriptStorage.init (RedisCache.init (Option.some "redis://localhost") 3600
          true)).delete_transcript
        ⟨[⟨storageKey "dQw4w9WgXcQ" (Option.some "en"), RStr.raw "hi", 50⟩,
          ⟨storageKey "dQw4w9WgXcQ" (Option.some "es"), RStr.raw "hola", 50⟩,
          ⟨metadataKey "dQw4w9WgXcQ", RStr.json (PyVal.dict []), 50⟩], 0, 0, 0⟩
        "dQw4w9WgXcQ" Option.none).2).getVal (storageKey "dQw4w9WgXcQ" (Option.some "es")) =
      Option.none
    ∧ (((TranscriptStorage.init (RedisCache.init (Option.some "redis://localhost") 3600
          true)).delete_transcript
        ⟨[⟨storageKey "dQw4w9WgXcQ" (Option.some "en"), RStr.raw "hi", 50⟩,
          ⟨storageKey "dQw4w9WgXcQ" (Option.some "es"), RStr.raw "hola", 50⟩,
          ⟨metadataKey "dQw4w9WgXcQ", RStr.json (PyVal.dict []), 50⟩], 0, 0, 0⟩
        "dQw4w9WgXcQ" (Option.some "en")).2).getVal (storageKey "dQw4w9WgXcQ" (Option.some "es")) =
      (⟨[⟨storageKey "dQw4w9WgXcQ" (Option.some "en"), RStr.raw "hi", 50⟩,
        ⟨storageKey "dQw4w9WgXcQ" (Option.some "es"), RStr.raw "hola", 50⟩,
        ⟨metadataKey "dQw4w9WgXcQ", RStr.json (PyVal.dict []), 50⟩], 0, 0, 0⟩ : Redis).getVal
        (storageKey "dQw4w9WgXcQ" (Option.some "es")) :=
  ⟨rfl, by decide,
   (C8_storage_deletion_law
     (TranscriptStorage.init (RedisCache.init (Option.some "redis://localhost") 3600 true))
     ⟨[⟨storageKey "dQw4w9WgXcQ" (Option.some "en"), RStr.raw "hi", 50⟩,
       ⟨storageKey "dQw4w9WgXcQ" (Option.some "es"), RStr.raw "hola", 50⟩,
       ⟨metadataKey "dQw4w9WgXcQ", RStr.json (PyVal.dict []), 50⟩], 0, 0, 0⟩
     "dQw4w9WgXcQ" "en" rfl (by decide)).2.1 (Option.some "es"),
   (C8_storage_deletion_law
     (TranscriptStorage.init (RedisCache.init (Option.some "redis://localhost") 3600 true))
     ⟨[⟨storageKey "dQw4w9WgXcQ" (Option.some "en"), RStr.raw "hi", 50⟩,
       ⟨storageKey "dQw4w9WgXcQ" (Option.some "es"), RStr.raw "hola", 50⟩,
       ⟨metadataKey "dQw4w9WgXcQ", RStr.json (PyVal.dict []), 50⟩], 0, 0, 0⟩
     "dQw4w9WgXcQ" "en" rfl (by decide)).2.2.2.2.2.2.1 "es" (by decide)⟩

/-- C9 counterexample: `clear_all` does not return the number of keys
deleted — it returns a boolean success flag. From a state with two live
cache keys the first call deletes both and returns `true`; the immediate
second call deletes zero keys and returns the very same value `true`, so
the returned value cannot be the deletion count (2 on the first call, 0 on
the second). -/
theorem C9_counterexample :
    ((⟨[⟨"youtube_api:video:aa", RStr.json (PyVal.int 1), 100⟩,
        ⟨"youtube_api:video:bb", RStr.json (PyVal.int 2), 100⟩], 0, 0, 0⟩ : Redis).keysWithPre
      "youtube_api:").length = 2
    ∧ ((RedisCache.init (Option.some "redis://localhost") 3600 true).clear_all
        ⟨[⟨"youtube_api:video:aa", RStr.json (PyVal.int 1), 100⟩,
          ⟨"youtube_api:video:bb", RStr.json (PyVal.int 2), 100⟩], 0, 0, 0⟩).1 = true
    ∧ ((((RedisCache.init (Option.some "redis://localhost") 3600 true).clear_all
        ⟨[⟨"youtube_api:video:aa", RStr.json (PyVal.int 1), 100⟩,
          ⟨"youtube_api:video:bb", RStr.json (PyVal.int 2), 100⟩], 0, 0, 0⟩).2).keysWithPre
        "youtube_api:").length = 0
    ∧ ((RedisCache.init (Option.some "redis://localhost") 3600 true).clear_all
        ((RedisCache.init (Option.some "redis://localhost") 3600 true).clear_all
          ⟨[⟨"youtube_api:video:aa", RStr.json (PyVal.int 1), 100⟩,
            ⟨"youtube_api:video:bb", RStr.json (PyVal.int 2), 100⟩], 0, 0, 0⟩).2).1 = true
    ∧ (2 : Nat) ≠ 0 :=
  ⟨rfl, rfl, rfl, rfl, by decide⟩

/-- C9 amended: with the backend enabled, `clear_all` returns `true` (a
success flag, not a count), after it every key under the cache namespace
`youtube_api:` is gone while every key outside that namespace — in
particular every storage-layer transcript and metadata key — is untouched,
and a second call finds zero keys to delete and returns `true` again. -/
theorem C9_amended_clear_namespace (c : RedisCache) (r : Redis) (hen : c.enabled = true) :
    (c.clear_all r).1 = true
    ∧ (∀ k, strIsPre "youtube_api:" k = true → ((c.clear_all r).2).getVal k = Option.none)
    ∧ (∀ k, strIsPre "youtube_api:" k = false → ((c.clear_all r).2).getVal k = r.getVal k)
    ∧ (∀ vid lang, ((c.clear_all r).2).getVal (storageKey vid lang) =
        r.getVal (storageKey vid lang))
    ∧ (∀ vid, ((c.clear_all r).2).getVal (metadataKey vid) = r.getVal (metadataKey vid))
    ∧ ((c.clear_all r).2).keysWithPre "youtube_api:" = []
    ∧ (c.clear_all (c.clear_all r).2).1 = true := by
  have huntouched : ∀ k, strIsPre "youtube_api:" k = false →
      ((c.clear_all r).2).getVal k = r.getVal k := by
    intro k hk
    by_cases hks : (r.keysWithPre "youtube_api:").isEmpty
    · simp [RedisCache.clear_all, hen, hks]
    · simp only [RedisCache.clear_all, hen, if_true, if_neg hks]
      apply getVal_del_not_mem
      intro hmem
      rw [of_mem_keysWithPre hmem] at hk
      simp at hk
  refine ⟨by simp [RedisCache.clear_all, hen], ?_, huntouched, ?_, ?_, ?_, ?_⟩
  · intro k hk
    by_cases hks : (r.keysWithPre "youtube_api:").isEmpty
    · simp only [RedisCache.clear_all, hen, if_true, hks]
      apply getVal_eq_none_of_dead hk
      rw [List.isEmpty_iff] at hks
      rw [hks]
      exact List.not_mem_nil _
    · simp only [RedisCache.clear_all, hen, if_true, if_neg hks]
      by_cases hm : k ∈ r.keysWithPre "youtube_api:"
      · exact getVal_del_mem hm
      · rw [getVal_del_not_mem hm]
        exact getVal_eq_none_of_dead hk hm
  · intro vid lang
    exact huntouched _ (strIsPre_cacheNs_storageKey vid lang)
  · intro vid
    exact huntouched _ (strIsPre_cacheNs_metadataKey vid)
  · by_cases hks : (r.keysWithPre "youtube_api:").isEmpty
    · simp only [RedisCache.clear_all, hen, if_true, hks]
      exact List.isEmpty_iff.mp hks
    · simp only [RedisCache.clear_all, hen, if_true, if_neg hks]
      exact keysWithPre_del_self r "youtube_api:"
  · simp [RedisCache.clear_all, hen]

/-- Witness for the amended C9 at the concrete two-cache-key,
one-storage-key state. -/
theorem C9_witness :
    (RedisCache.init (Option.some "redis://localhost") 3600 true).enabled = true
    ∧ ((RedisCache.init (Option.some "redis://localhost") 3600 true).clear_all
        ⟨[⟨"youtube_api:video:aa", RStr.json (PyVal.int 1), 100⟩,
          ⟨storageKey "dQw4w9WgXcQ" Option.none, RStr.raw "hi", 100⟩], 0, 0, 0⟩).1 = true
    ∧ (((RedisCache.init (Option.some "redis://localhost") 3600 true).clear_all
        ⟨[⟨"youtube_api:video:aa", RStr.json (PyVal.int 1), 100⟩,
          ⟨storageKey "dQw4w9WgXcQ" Option.none, RStr.raw "hi", 100⟩], 0, 0, 0⟩).2).getVal
        (storageKey "dQw4w9WgXcQ" Option.none) =
      (⟨[⟨"youtube_api:video:aa", RStr.json (PyVal.int 1), 100⟩,
         ⟨storageKey "dQw4w9WgXcQ" Option.none, RStr.raw "hi", 100⟩], 0, 0, 0⟩ : Redis).getVal
        (storageKey "dQw4w9WgXcQ" Option.none) :=
  ⟨rfl,
   (C9_amended_clear_namespace (RedisCache.init (Option.some "redis://localhost") 3600 true)
     ⟨[⟨"youtube_api:video:aa", RStr.json (PyVal.int 1), 100⟩,
       ⟨storageKey "dQw4w9WgXcQ" Option.none, RStr.raw "hi", 100⟩], 0, 0, 0⟩ rfl).1,
   (C9_amended_clear_namespace (RedisCache.init (Option.some "redis://localhost") 3600 true)
     ⟨[⟨"youtube_api:video:aa", RStr.json (PyVal.int 1), 100⟩,
       ⟨storageKey "dQw4w9WgXcQ" Option.none, RStr.raw "hi", 100⟩], 0, 0, 0⟩ rfl).2.2.2.1
     "dQw4w9WgXcQ" Option.none⟩

/-- C10: the language-less delete removes every backend key whose name
begins with `transcript_storage:` + id, with no separator before the
wildcard. For distinct 11-character ids, only the target id's keys are
removed: every transcript key and the metadata record of any other
11-character id survive. But when one id is a proper prefix of another
(here `abcdefghijk` and `abcdefghijkl`), deleting the shorter id also
deletes the longer id's transcript keys. -/
theorem C10_prefix_delete_overlap (st : TranscriptStorage) (r : Redis) (id1 id2 : String)
    (hen : st.enabled = true) (h1 : id1.length = 11) (h2 : id2.length = 11) (hne : id1 ≠ id2) :
    (∀ lang : Option String,
      ((st.delete_transcript r id1 Option.none).2).getVal (storageKey id2 lang) =
        r.getVal (storageKey id2 lang))
    ∧ st.get_metadata (st.delete_transcript r id1 Option.none).2 id2 = st.get_metadata r id2
    ∧ strIsPre "abcdefghijk" "abcdefghijkl" = true
    ∧ ("abcdefghijk" : String) ≠ "abcdefghijkl"
    ∧ (((TranscriptStorage.init (RedisCache.init (Option.some "redis://localhost") 3600
          true)).save_transcript ⟨[], 0, 0, 0⟩ "abcdefghijkl" "T" (Option.some "en") Option.none
          "ts").2).getVal (storageKey "abcdefghijkl" (Option.some "en")) =
        Option.some (RStr.raw "T")
    ∧ (((TranscriptStorage.init (RedisCache.init (Option.some "redis://localhost") 3600
          true)).delete_transcript
          (((TranscriptStorage.init (RedisCache.init (Option.some "redis://localhost") 3600
            true)).save_transcript ⟨[], 0, 0, 0⟩ "abcdefghijkl" "T" (Option.some "en") Option.none
            "ts").2) "abcdefghijk" Option.none).2).getVal
        (storageKey "abcdefghijkl" (Option.some "en")) = Option.none := by
  have hdelAll : st.delete_transcript r id1 Option.none = (true, deleteAllLangs r id1) := by
    simp [TranscriptStorage.delete_transcript, hen]
  have hlen : id1.length = id2.length := by rw [h1, h2]
  refine ⟨?_, ?_, by decide, by decide, rfl, rfl⟩
  · intro lang
    rw [hdelAll]
    exact getVal_deleteAllLangs_other (not_pre_storagePattern_of_ne hlen hne lang)
      (storageKey_ne_metadataKey id2 lang id1)
  · rw [hdelAll]
    unfold TranscriptStorage.get_metadata
    rw [getVal_deleteAllLangs_other (not_pre_storagePattern_metadataKey id1 id2)
      (fun h => hne (metadataKey_inj h).symm)]

/-- Witness for C10: deleting one 11-character id leaves a distinct
11-character id's stored transcript in place. -/
theorem C10_witness :
    (TranscriptStorage.init (RedisCache.init (Option.some "redis://localhost") 3600 true)).enabled
      = true
    ∧ ("dQw4w9WgXcQ" : String).length = 11
    ∧ ("AAAAAAAAAAA" : String).length = 11
    ∧ ("dQw4w9WgXcQ" : String) ≠ "AAAAAAAAAAA"
    ∧ (((TranscriptStorage.init (RedisCache.init (Option.some "redis://localhost") 3600
          true)).delete_transcript
        ⟨[⟨storageKey "AAAAAAAAAAA" (Option.some "en"), RStr.raw "hi", 50⟩], 0, 0, 0⟩
        "dQw4w9WgXcQ" Option.none).2).getVal (storageKey "AAAAAAAAAAA" (Option.some "en")) =
      (⟨[⟨storageKey "AAAAAAAAAAA" (Option.some "en"), RStr.raw "hi", 50⟩], 0, 0, 0⟩ :
        Redis).getVal (storageKey "AAAAAAAAAAA" (Option.some "en")) :=
  ⟨rfl, by decide, by decide, by decide,
   (C10_prefix_delete_overlap
     (TranscriptStorage.init (RedisCache.init (Option.some "redis://localhost") 3600 true))
     ⟨[⟨storageKey "AAAAAAAAAAA" (Option.some "en"), RStr.raw "hi", 50⟩], 0, 0, 0⟩
     "dQw4w9WgXcQ" "AAAAAAAAAAA" rfl (by decide) (by decide) (by decide)).1
     (Option.some "en")⟩

/-- C7 counterexample: `created_at` is not immutable across writes — a
second save whose caller-supplied metadata itself contains a `created_at`
field overwrites the value set on the first write, because `update` runs
before the created_at-only-if-absent guard. -/
theorem C7_counterexample :
    (TranscriptStorage.init (RedisCache.init (Option.some "redis://localhost") 3600
        true)).get_metadata
      (((TranscriptStorage.init (RedisCache.init (Option.some "redis://localhost") 3600
          true)).save_transcript
        (((TranscriptStorage.init (RedisCache.init (Option.some "redis://localhost") 3600
            true)).save_transcript ⟨[], 0, 0, 0⟩ "dQw4w9WgXcQ" "hello" Option.none Option.none
            "2024-01-01T00:00:00").2)
        "dQw4w9WgXcQ" "hello" Option.none
        (Option.some [("created_at", PyVal.str "1999-01-01T00:00:00")])
        "2024-01-02T00:00:00").2)
      "dQw4w9WgXcQ" =
      Option.some [("last_updated", PyVal.str "2024-01-02T00:00:00"),
        ("created_at", PyVal.str "1999-01-01T00:00:00")]
    ∧ ("1999-01-01T00:00:00" : String) ≠ "2024-01-01T00:00:00" :=
  ⟨rfl, by decide⟩

/-- Equation for a save with a truthy language once the `languages`
maintenance step is resolved. -/
theorem save_transcript_eq (st : TranscriptStorage) (r : Redis) (vid t l : String)
    (m : List (String × PyVal)) (ts : String) (hen : st.enabled = true)
    (d1 : List (String × PyVal))
    (hstep : languagesStep ((st.get_metadata
        (r.setex (storageKey vid (Option.some l)) 315360000 (RStr.raw t)) vid).getD [])
        (Option.some l) = Option.some d1) :
    st.save_transcript r vid t (Option.some l) (Option.some m) ts =
      (true, (r.setex (storageKey vid (Option.some l)) 315360000 (RStr.raw t)).setex
        (metadataKey vid) 315360000 (RStr.json (PyVal.dict
          (if dictHas (dictSet (dictUpdate d1 m) "last_updated" (PyVal.str ts)) "created_at"
           then dictSet (dictUpdate d1 m) "last_updated" (PyVal.str ts)
           else dictSet (dictSet (dictUpdate d1 m) "last_updated" (PyVal.str ts)) "created_at"
             (PyVal.str ts))))) := by
  unfold TranscriptStorage.save_transcript
  simp only [hen, if_true, hstep, Option.getD_some]

/-- A SETEX with the storage layer's ten-year TTL is immediately
readable. -/
theorem getVal_setex_self10y (r : Redis) (k : String) (v : RStr) :
    (r.setex k 315360000 v).getVal k = Option.some v :=
  getVal_setex_self r k 315360000 v (by omega)

/-- C7 amended: starting from no metadata record, saving with language l1
and metadata (a: va), then language l2 and metadata (b: vb), merges
additively: the final record holds both caller fields, a language list
containing both languages, `created_at` from the first write and
`last_updated` from the second — provided the caller-supplied metadata does
not itself use the reserved field names (in particular `created_at`, which
a caller can overwrite, as the counterexample shows). -/
theorem C7_amended_metadata_merge (st : TranscriptStorage) (r : Redis)
    (vid t1 t2 l1 l2 a b ts1 ts2 : String) (va vb : PyVal)
    (hen : st.enabled = true)
    (hinit : r.getVal (metadataKey vid) = Option.none)
    (hl1 : l1 ≠ "") (hl2 : l2 ≠ "")
    (ha1 : a ≠ "languages") (ha2 : a ≠ "last_updated") (ha3 : a ≠ "created_at")
    (hb1 : b ≠ "languages") (hb2 : b ≠ "last_updated") (hb3 : b ≠ "created_at")
    (hab : a ≠ b) :
    (st.save_transcript r vid t1 (Option.some l1) (Option.some [(a, va)]) ts1).1 = true
    ∧ (st.save_transcript (st.save_transcript r vid t1 (Option.some l1)
          (Option.some [(a, va)]) ts1).2 vid t2 (Option.some l2)
          (Option.some [(b, vb)]) ts2).1 = true
    ∧ ∃ d, st.get_metadata (st.save_transcript (st.save_transcript r vid t1 (Option.some l1)
          (Option.some [(a, va)]) ts1).2 vid t2 (Option.some l2)
          (Option.some [(b, vb)]) ts2).2 vid = Option.some d
        ∧ dictGet d a = Option.some va
        ∧ dictGet d b = Option.some vb
        ∧ (∃ ls, dictGet d "languages" = Option.some (PyVal.list ls)
            ∧ PyVal.str l1 ∈ ls ∧ PyVal.str l2 ∈ ls)
        ∧ dictGet d "created_at" = Option.some (PyVal.str ts1)
        ∧ dictGet d "last_updated" = Option.some (PyVal.str ts2) := by
  have hlit1 : ("languages" : String) ≠ "last_updated" := by decide
  have hlit2 : ("languages" : String) ≠ "created_at" := by decide
  have hlit3 : ("last_updated" : String) ≠ "created_at" := by decide
  have hksm1 : metadataKey vid ≠ storageKey vid (Option.some l1) :=
    Ne.symm (storageKey_ne_metadataKey vid (Option.some l1) vid)
  have hksm2 : metadataKey vid ≠ storageKey vid (Option.some l2) :=
    Ne.symm (storageKey_ne_metadataKey vid (Option.some l2) vid)
  have hmeta1 : st.get_metadata
      (r.setex (storageKey vid (Option.some l1)) 315360000 (RStr.raw t1)) vid = Option.none := by
    simp [TranscriptStorage.get_metadata, hen, getVal_setex_ne hksm1, hinit]
  have hstep1 : languagesStep ((st.get_metadata
      (r.setex (storageKey vid (Option.some l1)) 315360000 (RStr.raw t1)) vid).getD [])
      (Option.some l1) = Option.some [("languages", PyVal.list [PyVal.str l1])] := by
    rw [hmeta1]
    simp [languagesStep, hl1, dictHas, dictGet, dictSet]
  have hsave1 := save_transcript_eq st r vid t1 l1 [(a, va)] ts1 hen _ hstep1
  rw [show dictUpdate [("languages", PyVal.list [PyVal.str l1])] [(a, va)] =
      [("languages", PyVal.list [PyVal.str l1]), (a, va)] by
    simp [dictUpdate, dictSet, Ne.symm ha1]] at hsave1
  rw [show dictSet [("languages", PyVal.list [PyVal.str l1]), (a, va)] "last_updated"
      (PyVal.str ts1) =
      [("languages", PyVal.list [PyVal.str l1]), (a, va), ("last_updated", PyVal.str ts1)] by
    simp [dictSet, hlit1, ha2]] at hsave1
  rw [show dictHas [("languages", PyVal.list [PyVal.str l1]), (a, va),
      ("last_updated", PyVal.str ts1)] "created_at" = false by
    simp [dictHas, dictGet, hlit2, ha3, hlit3]] at hsave1
  rw [show dictSet [("languages", PyVal.list [PyVal.str l1]), (a, va),
      ("last_updated", PyVal.str ts1)] "created_at" (PyVal.str ts1) =
      [("languages", PyVal.list [PyVal.str l1]), (a, va), ("last_updated", PyVal.str ts1),
        ("created_at", PyVal.str ts1)] by
    simp [dictSet, hlit2, ha3, hlit3]] at hsave1
  simp only [Bool.false_eq_true, if_false] at hsave1
  rw [hsave1]
  refine ⟨rfl, ?_⟩
  have hmeta2 : st.get_metadata
      (((r.setex (storageKey vid (Option.some l1)) 315360000 (RStr.raw t1)).setex
        (metadataKey vid) 315360000 (RStr.json (PyVal.dict
          [("languages", PyVal.list [PyVal.str l1]), (a, va), ("last_updated", PyVal.str ts1),
            ("created_at", PyVal.str ts1)]))).setex (storageKey vid (Option.some l2)) 315360000
        (RStr.raw t2)) vid =
      Option.some [("languages", PyVal.list [PyVal.str l1]), (a, va),
        ("last_updated", PyVal.str ts1), ("created_at", PyVal.str ts1)] := by
    simp [TranscriptStorage.get_metadata, hen, getVal_setex_ne hksm2, getVal_setex_self10y]
  by_cases hll : l2 = l1
  · subst hll
    have hstep2 : languagesStep ((st.get_metadata
        (((r.setex (storageKey vid (Option.some l2)) 315360000 (RStr.raw t1)).setex
          (metadataKey vid) 315360000 (RStr.json (PyVal.dict
            [("languages", PyVal.list [PyVal.str l2]), (a, va), ("last_updated", PyVal.str ts1),
              ("created_at", PyVal.str ts1)]))).setex (storageKey vid (Option.some l2)) 315360000
          (RStr.raw t2)) vid).getD []) (Option.some l2) =
        Option.some [("languages", PyVal.list [PyVal.str l2]), (a, va),
          ("last_updated", PyVal.str ts1), ("created_at", PyVal.str ts1)] := by
      rw [hmeta2]
      simp [languagesStep, hl2, dictHas, dictGet]
    have hsave2 := save_transcript_eq st _ vid t2 l2 [(b, vb)] ts2 hen _ hstep2
    rw [hsave2]
    refine ⟨rfl, ?_⟩
    refine ⟨[("languages", PyVal.list [PyVal.str l2]), (a, va), ("last_updated", PyVal.str ts2),
      ("created_at", PyVal.str ts1), (b, vb)], ?_, ?_, ?_, ?_, ?_, ?_⟩
    · simp [TranscriptStorage.get_metadata, hen, getVal_setex_self10y, dictUpdate, dictSet,
        dictHas, dictGet, hlit1, hlit2, hlit3, ha2, ha3, Ne.symm ha1, hab, Ne.symm hb1,
        Ne.symm hb2, Ne.symm hb3]
    · simp [dictGet, Ne.symm ha1]
    · simp [dictGet, Ne.symm hb1, hab, Ne.symm hb2, Ne.symm hb3]
    · exact ⟨[PyVal.str l2], by simp [dictGet], by simp, by simp⟩
    · simp [dictGet, hlit2, ha3, hlit3]
    · simp [dictGet, hlit1, ha2]
  · have hll2 : l1 ≠ l2 := fun h => hll (Eq.symm h)
    have hstep2 : languagesStep ((st.get_metadata
        (((r.setex (storageKey vid (Option.some l1)) 315360000 (RStr.raw t1)).setex
          (metadataKey vid) 315360000 (RStr.json (PyVal.dict
            [("languages", PyVal.list [PyVal.str l1]), (a, va), ("last_updated", PyVal.str ts1),
              ("created_at", PyVal.str ts1)]))).setex (storageKey vid (Option.some l2)) 315360000
          (RStr.raw t2)) vid).getD []) (Option.some l2) =
        Option.some [("languages", PyVal.list [PyVal.str l1, PyVal.str l2]), (a, va),
          ("last_updated", PyVal.str ts1), ("created_at", PyVal.str ts1)] := by
      rw [hmeta2]
      simp [languagesStep, hl2, dictHas, dictGet, dictSet, hlit1, hlit2, hll2, Ne.symm ha1]
    have hsave2 := save_transcript_eq st _ vid t2 l2 [(b, vb)] ts2 hen _ hstep2
    rw [hsave2]
    refine ⟨rfl, ?_⟩
    refine ⟨[("languages", PyVal.list [PyVal.str l1, PyVal.str l2]), (a, va),
      ("last_updated", PyVal.str ts2), ("created_at", PyVal.str ts1), (b, vb)],
      ?_, ?_, ?_, ?_, ?_, ?_⟩
    · simp [TranscriptStorage.get_metadata, hen, getVal_setex_self10y, dictUpdate, dictSet,
        dictHas, dictGet, hlit1, hlit2, hlit3, ha2, ha3, Ne.symm ha1, hab, Ne.symm hb1,
        Ne.symm hb2, Ne.symm hb3]
    · simp [dictGet, Ne.symm ha1]
    · simp [dictGet, Ne.symm hb1, hab, Ne.symm hb2, Ne.symm hb3]
    · exact ⟨[PyVal.str l1, PyVal.str l2], by simp [dictGet], by simp, by simp⟩
    · simp [dictGet, hlit2, ha3, hlit3]
    · simp [dictGet, hlit1, ha2]

/-- Witness for the amended C7: saving (en, title) then (es, author) for
one id on an empty backend merges both fields and both languages. -/
theorem C7_witness :
    (TranscriptStorage.init (RedisCache.init (Option.some "redis://localhost") 3600 true)).enabled
      = true
    ∧ (⟨[], 0, 0, 0⟩ : Redis).getVal (metadataKey "dQw4w9WgXcQ") = Option.none
    ∧ ((TranscriptStorage.init (RedisCache.init (Option.some "redis://localhost") 3600
        true)).save_transcript ⟨[], 0, 0, 0⟩ "dQw4w9WgXcQ" "hello" (Option.some "en")
        (Option.some [("title", PyVal.str "A")]) "T1").1 = true
    ∧ ∃ d, (TranscriptStorage.init (RedisCache.init (Option.some "redis://localhost") 3600
          true)).get_metadata
        ((TranscriptStorage.init (RedisCache.init (Option.some "redis://localhost") 3600
          true)).save_transcript
          ((TranscriptStorage.init (RedisCache.init (Option.some "redis://localhost") 3600
            true)).save_transcript ⟨[], 0, 0, 0⟩ "dQw4w9WgXcQ" "hello" (Option.some "en")
            (Option.some [("title", PyVal.str "A")]) "T1").2
          "dQw4w9WgXcQ" "hola" (Option.some "es") (Option.some [("author", PyVal.str "B")])
          "T2").2 "dQw4w9WgXcQ" = Option.some d
        ∧ dictGet d "title" = Option.some (PyVal.str "A")
        ∧ dictGet d "author" = Option.some (PyVal.str "B")
        ∧ (∃ ls, dictGet d "languages" = Option.some (PyVal.list ls)
            ∧ PyVal.str "en" ∈ ls ∧ PyVal.str "es" ∈ ls)
        ∧ dictGet d "created_at" = Option.some (PyVal.str "T1")
        ∧ dictGet d "last_updated" = Option.some (PyVal.str "T2") :=
  ⟨rfl, rfl,
   (C7_amended_metadata_merge
     (TranscriptStorage.init (RedisCache.init (Option.some "redis://localhost") 3600 true))
     ⟨[], 0, 0, 0⟩ "dQw4w9WgXcQ" "hello" "hola" "en" "es" "title" "author" "T1" "T2"
     (PyVal.str "A") (PyVal.str "B") rfl rfl (by decide) (by decide) (by decide) (by decide)
     (by decide) (by decide) (by decide) (by decide) (by decide)).1,
   (C7_amended_metadata_merge
     (TranscriptStorage.init (RedisCache.init (Option.some "redis://localhost") 3600 true))
     ⟨[], 0, 0, 0⟩ "dQw4w9WgXcQ" "hello" "hola" "en" "es" "title" "author" "T1" "T2"
     (PyVal.str "A") (PyVal.str "B") rfl rfl (by decide) (by decide) (by decide) (by decide)
     (by decide) (by decide) (by decide) (by decide) (by decide)).2.2⟩
